import Mathlib

/-!
Verification of the trip-text parser and derived-metrics engine of
`analysis_engine.py` (pilot trip schedule analysis).

The Python source is shallowly embedded below.  Strings are modelled by
Lean `String` (processed through their underlying `List Char`), Python
`float` values that carry exact decimal data by `ℚ`, Python `int` by `ℤ`
or `ℕ`, Python `datetime` dates by `(year, month, day)` triples of
naturals validated exactly as `datetime` validates them, together with a
day-number (rata die) function used to model date ordering, subtraction
and weekday computation.  Python functions that swallow exceptions
(`try/except ValueError`) are modelled with `Option`.
-/

namespace TripAnalysis

/-! ## Basic character and string helpers (Python semantics, ASCII model) -/

/-- Whitespace characters recognised by Python `str.split()` / `str.strip()`
(ASCII model). -/
def wsChar (c : Char) : Bool :=
  c = ' ' || c = '\t' || c = '\n' || c = '\r' || c = '\x0b' || c = '\x0c'

def isDigitChar (c : Char) : Bool := '0' ≤ c && c ≤ '9'

def isUpperChar (c : Char) : Bool := 'A' ≤ c && c ≤ 'Z'

def isLowerChar (c : Char) : Bool := 'a' ≤ c && c ≤ 'z'

def isAlphaChar (c : Char) : Bool := isUpperChar c || isLowerChar c

/-- Characters that are "word" characters for the purposes of the regex
word boundary `\b` (ASCII model of `\w`). -/
def wordChar (c : Char) : Bool := isAlphaChar c || isDigitChar c || c = '_'

/-- Python `str.strip()` on a character list. -/
def stripChars (l : List Char) : List Char :=
  ((l.dropWhile wsChar).reverse.dropWhile wsChar).reverse

/-- Python `line.strip()`. -/
def pyStrip (s : String) : String := ⟨stripChars s.data⟩

/-- Python `s.rstrip(c)` for a single character `c`. -/
def rstripChar (c : Char) (s : String) : String :=
  ⟨(s.data.reverse.dropWhile (· = c)).reverse⟩

/-- Python substring containment `sub in s`. -/
def containsStr (sub s : String) : Bool := decide (sub.data <:+: s.data)

/-- Python `s.startswith(p)`. -/
def startsStr (p s : String) : Bool := p.data.isPrefixOf s.data

/-- Python `s.endswith(p)`. -/
def endsStr (p s : String) : Bool := p.data.isSuffixOf s.data

/-- Python `len(s)`. -/
def strLen (s : String) : ℕ := s.data.length

/-- Helper for `pySplit`: split a character list on whitespace runs. -/
def splitWsAux : List Char → List Char → List String
  | [], acc => if acc.isEmpty then [] else [⟨acc.reverse⟩]
  | c :: cs, acc =>
    if wsChar c then
      if acc.isEmpty then splitWsAux cs [] else ⟨acc.reverse⟩ :: splitWsAux cs []
    else splitWsAux cs (c :: acc)

/-- Python `line.split()` (split on whitespace runs, dropping empties). -/
def pySplit (s : String) : List String := splitWsAux s.data []

/-- Helper for `splitLines`: split a character list at each newline. -/
def splitNlAux : List Char → List Char → List String
  | [], acc => [⟨acc.reverse⟩]
  | c :: cs, acc =>
    if c = '\n' then ⟨acc.reverse⟩ :: splitNlAux cs [] else splitNlAux cs (c :: acc)

/-- Python `file_content.split('\n')`. -/
def splitLines (s : String) : List String := splitNlAux s.data []

/-- Python `int(s)` on a token (optional sign followed by one or more
digits; result `ℤ`; `none` models the `ValueError`). -/
def pyIntChars (l : List Char) : Option ℤ :=
  let core : List Char → Option ℤ := fun ds =>
    if ds.isEmpty || !ds.all isDigitChar then none
    else some (ds.foldl (fun n c => n * 10 + ((c.toNat : ℤ) - 48)) 0)
  match l with
  | '-' :: rest => (core rest).map (fun n => -n)
  | '+' :: rest => core rest
  | _ => core l

/-- Value of a digit list as a natural number (used by the regex models,
which only ever capture digit groups). -/
def digitsVal (l : List Char) : ℕ :=
  l.foldl (fun n c => n * 10 + (c.toNat - 48)) 0

/-- Python `float(s)` restricted to plain decimal literals
`[+-]?digits[.digits] | [+-]?.digits`, the only float shapes the source
data contains; exact value as a rational. `none` models `ValueError`. -/
def parseFloatChars (l : List Char) : Option ℚ :=
  let split : List Char → (List Char × List Char) := fun ds =>
    (ds.takeWhile (· ≠ '.'), ds.dropWhile (· ≠ '.'))
  let core : List Char → Option ℚ := fun ds =>
    let (intPart, rest) := split ds
    match rest with
    | [] =>
      if intPart.isEmpty || !intPart.all isDigitChar then none
      else some ((digitsVal intPart : ℚ))
    | '.' :: frac =>
      if !intPart.all isDigitChar || !frac.all isDigitChar then none
      else if intPart.isEmpty && frac.isEmpty then none
      else some ((digitsVal intPart : ℚ) + (digitsVal frac : ℚ) / (10 : ℚ) ^ frac.length)
    | _ => none
  match l with
  | '-' :: rest => (core rest).map (fun q => -q)
  | '+' :: rest => core rest
  | _ => core l

/-- Python `float(s)` on a `String`. -/
def pyFloat (s : String) : Option ℚ := parseFloatChars s.data

/-- Python `int(x)` on a float: truncation toward zero. -/
def pyTrunc (q : ℚ) : ℤ := if 0 ≤ q then ⌊q⌋ else ⌈q⌉

/-- Python `round(x)` (banker's rounding: round half to even). -/
def pyRound (q : ℚ) : ℤ :=
  let f := ⌊q⌋
  let r := q - (f : ℚ)
  if r < 1/2 then f
  else if 1/2 < r then f + 1
  else if f % 2 = 0 then f else f + 1

/-! ## Trip Segmenter (`parse_trips`) -/

/-- Does the line contain the literal token `EFFECTIVE`
(Python `'EFFECTIVE' in line`)? -/
def hasEff (l : String) : Bool := containsStr "EFFECTIVE" l

/-- Does the line terminate a trip (Python
`line.strip().startswith('---')`)? -/
def isTerm (l : String) : Bool := startsStr "---" (pyStrip l)

/-- The line scanning loop of `parse_trips`: `cur` is `current_trip`,
`inTrip` is the `in_trip` flag. -/
def parseTripsAux : List String → List String → Bool → List (List String)
  | [], _, _ => []
  | l :: ls, cur, inTrip =>
    if hasEff l then parseTripsAux ls [l] true
    else if inTrip then
      if isTerm l then (cur ++ [l]) :: parseTripsAux ls [] false
      else parseTripsAux ls (cur ++ [l]) true
    else parseTripsAux ls cur false

/-- `parse_trips` on an already split line list. -/
def parseTripsLines (lines : List String) : List (List String) :=
  parseTripsAux lines [] false

/-- `parse_trips(file_content)`. -/
def parse_trips (file_content : String) : List (List String) :=
  parseTripsLines (splitLines file_content)

/-! Characterisation machinery for `parse_trips`. -/

/-- All lines strictly inside a trip span: no `EFFECTIVE` (which would
restart the group) and no terminator (which would have ended it sooner). -/
def midOk (mid : List String) : Prop :=
  ∀ l ∈ mid, hasEff l = false ∧ isTerm l = false

/-- `closeSpan acc ls g`: starting inside a trip with accumulated lines
`acc`, the remaining input `ls` closes the group as `g`. -/
def closeSpan (acc : List String) (ls : List String) (g : List String) : Prop :=
  ∃ mid t post, ls = mid ++ t :: post ∧ midOk mid ∧
    isTerm t = true ∧ hasEff t = false ∧ g = acc ++ mid ++ [t]

/-- `spanGroup ls g`: `g` is a maximal trip span of `ls` — it starts at a
line containing `EFFECTIVE`, contains no further `EFFECTIVE` line and no
earlier terminator, and ends (inclusive) at a terminator line. -/
def spanGroup (ls : List String) (g : List String) : Prop :=
  ∃ pre e rest, ls = pre ++ e :: rest ∧ hasEff e = true ∧ closeSpan [e] rest g

/-- One step of the `parse_trips` scanner on the pair
`(current_trip, in_trip)`. -/
def stepState (p : List String × Bool) (l : String) : List String × Bool :=
  if hasEff l then ([l], true)
  else if p.2 then
    if isTerm l then ([], false) else (p.1 ++ [l], true)
  else p

/-- Run the scanner over a list of lines, returning the final state. -/
def runState (ls : List String) (p : List String × Bool) : List String × Bool :=
  ls.foldl stepState p

/-! ## Date model (Python `datetime.date` semantics)

A Python `datetime(y, m, d)` (midnight) is modelled by the validated
triple `(y, m, d)`; construction failure (`ValueError`) is `Option`.
Ordering, subtraction of dates and `timedelta(days=1)` stepping are
modelled through the day number `rataDie` (days since 0000-03-01 in the
proleptic Gregorian calendar), which is strictly monotone in the date;
`weekday()` (Monday = 0) is a mod-7 function of the day number. -/

/-- A valid Python date: `(year, month, day)`. -/
abbrev PyDate := ℕ × ℕ × ℕ

def isLeap (y : ℕ) : Bool := (y % 4 = 0 && !(y % 100 = 0)) || y % 400 = 0

def daysInMonth (y m : ℕ) : ℕ :=
  if m = 2 then (if isLeap y then 29 else 28)
  else if m = 4 || m = 6 || m = 9 || m = 11 then 30
  else 31

/-- `datetime(year, month, day)`: `none` models the `ValueError` raised on
an invalid date (bad day-of-month, or year outside `1..9999`). -/
def mkDate (y : ℤ) (m d : ℕ) : Option PyDate :=
  if 1 ≤ y ∧ y ≤ 9999 ∧ 1 ≤ m ∧ m ≤ 12 ∧ 1 ≤ d ∧ d ≤ daysInMonth y.toNat m then
    some (y.toNat, m, d)
  else none

/-- Day number of a date (days since 0000-03-01, proleptic Gregorian). -/
def rataDie (dt : PyDate) : ℕ :=
  let y := if dt.2.1 ≤ 2 then dt.1 - 1 else dt.1
  let era := y / 400
  let yoe := y % 400
  let mp := (dt.2.1 + 9) % 12
  let doy := (153 * mp + 2) / 5 + dt.2.2 - 1
  let doe := yoe * 365 + yoe / 4 - yoe / 100 + doy
  era * 146097 + doe

/-- `weekday()` of the date with day number `rd` (Monday = 0). -/
def wdOfRd (rd : ℕ) : ℕ := (rd + 2) % 7

/-- Python `date.weekday()` (Monday = 0 … Sunday = 6). -/
def pyWeekday (dt : PyDate) : ℕ := wdOfRd (rataDie dt)

/-! ## Regex models for the `EFFECTIVE` / `EXCEPT` headers

Each Python `re.search`/`re.findall` call of `get_effective_dates` is
modelled by a direct leftmost-match scanner over the character list with
the exact alternation/greediness behaviour of the pattern in the source
(including `\b` word boundaries and the one-or-two-digit backtracking). -/

/-- Word boundary test against the character preceding the current scan
position (`none` = start of string). -/
def boundaryL : Option Char → Bool
  | none => true
  | some c => !wordChar c

/-- Word boundary after a match: the next character must not be a word
character (or the string ends). -/
def boundaryR : List Char → Bool
  | [] => true
  | c :: _ => !wordChar c

def monthPairs : List (List Char × ℕ) :=
  [("JAN".data, 1), ("FEB".data, 2), ("MAR".data, 3), ("APR".data, 4),
   ("MAY".data, 5), ("JUN".data, 6), ("JUL".data, 7), ("AUG".data, 8),
   ("SEP".data, 9), ("OCT".data, 10), ("NOV".data, 11), ("DEC".data, 12)]

def matchMonthGo : List (List Char × ℕ) → List Char → Option (ℕ × List Char)
  | [], _ => none
  | (ab, n) :: rest, l =>
    if ab.isPrefixOf l then some (n, l.drop ab.length) else matchMonthGo rest l

/-- Match the month alternation
`(JAN|FEB|MAR|APR|MAY|JUN|JUL|AUG|SEP|OCT|NOV|DEC)` at the head of `l`,
returning the month number and the remaining characters. -/
def matchMonth (l : List Char) : Option (ℕ × List Char) := matchMonthGo monthPairs l

/-- Match `(\d{1,2})` greedily, requiring a `\b` after the digits
(backtracking from two digits to one exactly as the regex engine does). -/
def digitsEndB : List Char → Option ℕ
  | d1 :: d2 :: rest =>
    if isDigitChar d1 && isDigitChar d2 && boundaryR rest then
      some (digitsVal [d1, d2])
    else if isDigitChar d1 && boundaryR (d2 :: rest) then some (digitsVal [d1])
    else none
  | [d1] => if isDigitChar d1 then some (digitsVal [d1]) else none
  | [] => none

/-- Match `(\d{1,2})-`, returning the captured value and the characters
after the hyphen. -/
def digitsDash : List Char → Option (ℕ × List Char)
  | d1 :: d2 :: rest =>
    if isDigitChar d1 then
      if isDigitChar d2 then
        match rest with
        | '-' :: rest2 => some (digitsVal [d1, d2], rest2)
        | _ => none
      else if d2 = '-' then some (digitsVal [d1], rest)
      else none
    else none
  | _ => none

/-- Match `\s+ONLY\b` (after the day digits of the ONLY form). -/
def afterOnly : List Char → Bool
  | [] => false
  | c :: cs =>
    if wsChar c then
      let cs2 := cs.dropWhile wsChar
      if "ONLY".data.isPrefixOf cs2 then boundaryR (cs2.drop 4) else false
    else false

/-- Attempt the `MMM(\d{1,2})\s+ONLY\b` body at the current position. -/
def tryOnlyAt (l : List Char) : Option (ℕ × ℕ) :=
  match matchMonth l with
  | none => none
  | some (m, rest) =>
    match rest with
    | d1 :: d2 :: rest2 =>
      if isDigitChar d1 && isDigitChar d2 && afterOnly rest2 then
        some (m, digitsVal [d1, d2])
      else if isDigitChar d1 && afterOnly (d2 :: rest2) then some (m, digitsVal [d1])
      else none
    | _ => none

/-- Attempt the cross-month range body
`MMM(\d{1,2})-MMM\.\s*(\d{1,2})\b` at the current position. -/
def tryRangeAAt (l : List Char) : Option (ℕ × ℕ × ℕ × ℕ) :=
  match matchMonth l with
  | none => none
  | some (m1, rest) =>
    match digitsDash rest with
    | none => none
    | some (d1, rest2) =>
      match matchMonth rest2 with
      | none => none
      | some (m2, rest3) =>
        match rest3 with
        | '.' :: rest4 =>
          match digitsEndB (rest4.dropWhile wsChar) with
          | some d2 => some (m1, d1, m2, d2)
          | none => none
        | _ => none

/-- Attempt the same-month range body `MMM(\d{1,2})-(\d{1,2})\b` at the
current position. -/
def tryRangeCAt (l : List Char) : Option (ℕ × ℕ × ℕ) :=
  match matchMonth l with
  | none => none
  | some (m, rest) =>
    match digitsDash rest with
    | none => none
    | some (d1, rest2) =>
      match digitsEndB rest2 with
      | some d2 => some (m, d1, d2)
      | none => none

/-- Leftmost-match scanner (`re.search`) for a pattern beginning with a
`\b`-anchored word: try the body at every position whose left context is
a word boundary. -/
def reSearchAux {α : Type} (tryAt : List Char → Option α) :
    Option Char → List Char → Option α
  | _, [] => none
  | prev, c :: cs =>
    if boundaryL prev then
      match tryAt (c :: cs) with
      | some r => some r
      | none => reSearchAux tryAt (some c) cs
    else reSearchAux tryAt (some c) cs

/-- The `re.search` of the ONLY form over a header line. -/
def onlySearch (s : String) : Option (ℕ × ℕ) := reSearchAux tryOnlyAt none s.data

/-- The `re.search` of the cross-month range pattern over a header line. -/
def rangeASearch (s : String) : Option (ℕ × ℕ × ℕ × ℕ) :=
  reSearchAux tryRangeAAt none s.data

/-- The `re.search` of the same-month range pattern over a header line. -/
def rangeCSearch (s : String) : Option (ℕ × ℕ × ℕ) :=
  reSearchAux tryRangeCAt none s.data

def dowTriples : List (Char × Char × String) :=
  [('M', 'O', "MO"), ('T', 'U', "TU"), ('W', 'E', "WE"), ('T', 'H', "TH"),
   ('F', 'R', "FR"), ('S', 'A', "SA"), ('S', 'U', "SU")]

/-- Try the two-letter day-of-week alternation on `(c1, c2)`. -/
def dowTok (c1 c2 : Char) : Option String :=
  (dowTriples.find? (fun t => t.1 = c1 && t.2.1 = c2)).map (·.2.2)

/-- `re.findall(r'\b(MO|TU|WE|TH|FR|SA|SU)\b', line)`. -/
def dowFindallAux : Option Char → List Char → List String
  | _, [] => []
  | _, [_] => []
  | prev, c1 :: c2 :: rest =>
    if boundaryL prev then
      match dowTok c1 c2 with
      | some tok =>
        if boundaryR rest then tok :: dowFindallAux (some c2) rest
        else dowFindallAux (some c1) (c2 :: rest)
      | none => dowFindallAux (some c1) (c2 :: rest)
    else dowFindallAux (some c1) (c2 :: rest)

def dowFindall (s : String) : List String := dowFindallAux none s.data

/-- Attempt the `MMM\s+(\d{1,2})\b` body of the EXCEPT pattern at the
current position, returning the match and the number of characters it
consumed. -/
def tryExceptAt (l : List Char) : Option ((ℕ × ℕ) × ℕ) :=
  match matchMonth l with
  | none => none
  | some (m, rest) =>
    let k := (rest.takeWhile wsChar).length
    if k = 0 then none
    else
      match rest.drop k with
      | d1 :: d2 :: r2 =>
        if isDigitChar d1 && isDigitChar d2 && boundaryR r2 then
          some ((m, digitsVal [d1, d2]), 3 + k + 2)
        else if isDigitChar d1 && boundaryR (d2 :: r2) then
          some ((m, digitsVal [d1]), 3 + k + 1)
        else none
      | [d1] => if isDigitChar d1 then some ((m, digitsVal [d1]), 3 + k + 1) else none
      | [] => none

/-- `re.findall(r'\b(MMM…)\s+(\d{1,2})\b', line)`: non-overlapping
leftmost matches, resuming after each match.  The first argument is
fuel (structural recursion); every step consumes at least one character,
so fuel equal to the input length never runs out. -/
def exceptFindallAux : ℕ → Option Char → List Char → List (ℕ × ℕ)
  | 0, _, _ => []
  | _, _, [] => []
  | fuel + 1, prev, c :: cs =>
    if boundaryL prev then
      match tryExceptAt (c :: cs) with
      | some (md, n) =>
        md :: exceptFindallAux fuel (((c :: cs).take n).getLast?) (cs.drop (n - 1))
      | none => exceptFindallAux fuel (some c) cs
    else exceptFindallAux fuel (some c) cs

def exceptFindall (s : String) : List (ℕ × ℕ) :=
  exceptFindallAux s.data.length none s.data

/-! ## Recurrence Resolver (`get_effective_dates`) -/

def dowPairs : List (String × ℕ) :=
  [("MO", 0), ("TU", 1), ("WE", 2), ("TH", 3), ("FR", 4), ("SA", 5), ("SU", 6)]

/-- `dow_map.get(dow)`. -/
def dowNum (s : String) : Option ℕ := (dowPairs.find? (fun p => p.1 = s)).map (·.2)

/-- First loop of `get_effective_dates`: the last line containing
`EFFECTIVE`, and the last line containing `EXCEPT` but not `EXCPT`
(an `EFFECTIVE` line is never considered for `EXCEPT`, mirroring the
`elif`). -/
def headerExceptOf (trip : List String) : Option String × Option String :=
  trip.foldl
    (fun p l =>
      if hasEff l then (some l, p.2)
      else if containsStr "EXCEPT" l && !containsStr "EXCPT" l then (p.1, some l)
      else p)
    (none, none)

/-- Year used for an EXCEPT date of month `m`: hardcoded in the source as
`2025 if month_num >= 10 else 2026` (not the bid year). -/
def hardExceptYear (m : ℕ) : ℤ := if 10 ≤ m then 2025 else 2026

/-- The date-range resolution of `get_effective_dates`: first the
cross-month pattern (the second, same-month `MMM##-MMM. ##` attempt in
the source is the identical regex, hence redundant), then the
`MMM##-##` pattern; a `datetime` `ValueError` on either endpoint makes
the whole resolution fail. -/
def rangeResolve (h : String) (bidYear : ℤ) : Option (PyDate × PyDate) :=
  match rangeASearch h with
  | some (m1, d1, m2, d2) =>
    let endYear := if m2 < m1 then bidYear + 1 else bidYear
    match mkDate bidYear m1 d1, mkDate endYear m2 d2 with
    | some s, some e => some (s, e)
    | _, _ => none
  | none =>
    match rangeCSearch h with
    | some (m, d1, d2) =>
      match mkDate bidYear m d1, mkDate bidYear m d2 with
      | some s, some e => some (s, e)
      | _, _ => none
    | none => none

/-- The `while current <= end_date` loop collecting the occurrence dates
(as day numbers) whose weekday is in `target_dows`. -/
def occRdList (s e : PyDate) (targets : List ℕ) : List ℕ :=
  (((List.range (rataDie e + 1 - rataDie s)).map (fun i => rataDie s + i)).filter
    (fun rd => targets.contains (wdOfRd rd)))

/-- The EXCEPT pass: one decrement per extracted `MMM DD` pair whose
(hardcoded-year) date is a member of the occurrence list. -/
def exceptHits (exLine : Option String) (occ : List ℕ) : ℕ :=
  match exLine with
  | none => 0
  | some ex =>
    (exceptFindall ex).countP (fun md =>
      match mkDate (hardExceptYear md.1) md.1 md.2 with
      | some dt => occ.contains (rataDie dt)
      | none => false)

/-- `get_effective_dates(trip_lines, bid_year)`: returns
`(days_of_week, start_date, end_date, occurrences)`. -/
def get_effective_dates (trip : List String) (bidYear : ℤ) :
    List String × Option PyDate × Option PyDate × ℤ :=
  match headerExceptOf trip with
  | (none, _) => ([], none, none, 1)
  | (some h, exLine) =>
    let dows := dowFindall h
    match onlySearch h with
    | some (m, d) =>
      match mkDate bidYear m d with
      | none => (dows, none, none, 1)
      | some dt =>
        if dows.isEmpty then (dows, some dt, some dt, 1)
        else if dows.any (fun tok => decide (dowNum tok = some (pyWeekday dt))) then
          (dows, some dt, some dt, 1)
        else (dows, some dt, some dt, 0)
    | none =>
      match rangeResolve h bidYear with
      | none => (dows, none, none, 1)
      | some (s, e) =>
        let targets := dows.filterMap dowNum
        if targets.isEmpty then
          (dows, some s, some e, (rataDie e : ℤ) - (rataDie s : ℤ) + 1)
        else
          let occ := occRdList s e targets
          (dows, some s, some e, (occ.length : ℤ) - (exceptHits exLine occ : ℤ))

/-! ## Trip Decomposer -/

/-- Python `part.isalpha()` (ASCII model; the check is always combined
with a length test in the source). -/
def strIsAlpha (s : String) : Bool := !s.data.isEmpty && s.data.all isAlphaChar

/-- Python `part.isdigit()` (ASCII model). -/
def strIsDigit (s : String) : Bool := !s.data.isEmpty && s.data.all isDigitChar

/-- Python `part.isupper()` (ASCII model: some cased character, and all
cased characters uppercase). -/
def pyIsUpper (s : String) : Bool :=
  !(s.data.filter isAlphaChar).isEmpty && (s.data.filter isAlphaChar).all isUpperChar

/-- `line[1:4].strip()`: the duty-day marker column. -/
def dayColOf (l : String) : String := ⟨stripChars ((l.data.drop 1).take 3)⟩

def dutyLetters : List String := ["A", "B", "C", "D", "E"]

/-- `day_to_length.get(letter, 0)`. -/
def dayRank (s : String) : ℕ :=
  if s = "A" then 1 else if s = "B" then 2 else if s = "C" then 3
  else if s = "D" then 4 else if s = "E" then 5 else 0

/-- A flight leg as stored by the decomposer:
`(dep_airport, dep_time, arr_airport, arr_time)`; the two time strings
have had trailing `*` stripped before validation. -/
abbrev Leg := String × String × String × String

/-- The 4-token window test of `determine_trip_length_with_details`. -/
def legWindow (a b c d : String) : Bool :=
  strLen a = 3 && strIsAlpha a && strLen b = 4 && strIsDigit b &&
  strLen c = 3 && strIsAlpha c && strLen d = 4 && strIsDigit d

/-- The non-overlapping left-to-right window scan over the tokens of one
line: advance 4 tokens on a match and 1 token otherwise. -/
def scanLegs : List String → List Leg
  | a :: b :: c :: d :: rest =>
    let b2 := rstripChar '*' b
    let d2 := rstripChar '*' d
    if legWindow a b2 c d2 then (a, b2, c, d2) :: scanLegs rest
    else scanLegs (b :: c :: d :: rest)
  | _ => []

/-- Scanner state of `determine_trip_length_with_details`:
`last_day_letter` / `current_day_letter` (always assigned together in the
source), `legs_by_day` (as a total count function, `get` defaulting to
0), and the accumulated `flight_legs`. -/
structure DtlState where
  lastDay : Option String
  curDay : Option String
  legsByDay : String → ℕ
  legs : List Leg

def dtlStep (st : DtlState) (l : String) : DtlState :=
  if strLen l < 10 then st
  else
    let dc := dayColOf l
    let st1 :=
      if dutyLetters.contains dc then { st with lastDay := some dc, curDay := some dc }
      else st
    if 30 < strLen l then
      let newLegs := scanLegs (pySplit l)
      match st1.curDay with
      | some c =>
        { st1 with legs := st1.legs ++ newLegs,
                   legsByDay := fun x =>
                     if x = c then st1.legsByDay c + newLegs.length else st1.legsByDay x }
      | none => { st1 with legs := st1.legs ++ newLegs }
    else st1

/-- The end of `determine_trip_length_with_details`: read off
`day_to_length.get(last_day_letter, 0)`, the last-day leg count, and the
red-eye extension check on the final leg (`int` failures caught). -/
def dtlFinish (st : DtlState) : ℕ × ℕ × List Leg :=
  ((match st.lastDay with
    | some c => dayRank c
    | none => 0) +
   (match st.legs.getLast? with
    | none => 0
    | some leg =>
      match pyIntChars (leg.2.1.data.take 2), pyIntChars (leg.2.2.2.data.take 2) with
      | some dh, some ah => if 20 ≤ dh ∧ 2 ≤ ah then 1 else 0
      | _, _ => 0),
   (match st.lastDay with
    | some c => st.legsByDay c
    | none => 0),
   st.legs)

/-- `determine_trip_length_with_details(trip_lines)`:
`(num_days, last_day_legs, flight_legs)`. -/
def determine_trip_length_with_details (trip : List String) : ℕ × ℕ × List Leg :=
  dtlFinish (trip.foldl dtlStep ⟨none, none, fun _ => 0, []⟩)

/-- Token scan of `get_first_departure_airport` on one duty-day line. -/
def firstAirportTok : List String → Option String
  | [] => none
  | t :: ts =>
    if strLen t = 3 && strIsAlpha t && pyIsUpper t then some t
    else firstAirportTok ts

def get_first_departure_airport : List String → Option String
  | [] => none
  | l :: ls =>
    if strLen l < 10 then get_first_departure_airport ls
    else if dutyLetters.contains (dayColOf l) then
      match firstAirportTok (pySplit l) with
      | some t => some t
      | none => get_first_departure_airport ls
    else get_first_departure_airport ls

def BASE_MAPPING : List (String × String) :=
  [("ATL", "ATL"), ("BOS", "BOS"), ("JFK", "NYC"), ("LGA", "NYC"), ("EWR", "NYC"),
   ("DTW", "DTW"), ("SLC", "SLC"), ("MSP", "MSP"), ("SEA", "SEA"),
   ("LAX", "LAX"), ("LGB", "LAX"), ("ONT", "LAX")]

/-- `BASE_MAPPING.get(airport, 'UNKNOWN')`. -/
def baseOf (ap : String) : String :=
  ((BASE_MAPPING.find? (fun p => p.1 == ap)).map (·.2)).getD "UNKNOWN"

/-! ## Red-eye determination and report/release times -/

/-- Parse the four time fields of a leg exactly as `has_redeye_flight`
does (`int(t[:2])`, `int(t[2:4]) if len(t) >= 4 else 0`, arrival after
`rstrip('*')`), returning minutes since midnight for departure and
arrival plus the next-day-marker flag; `none` models the caught
`ValueError`/`IndexError`. -/
def legTimes (leg : Leg) : Option (ℤ × ℤ × Bool) :=
  let dep := leg.2.1
  let arr := leg.2.2.2
  match pyIntChars (dep.data.take 2) with
  | none => none
  | some dh =>
    match (if 4 ≤ strLen dep then pyIntChars ((dep.data.drop 2).take 2) else some 0) with
    | none => none
    | some dm =>
      let arrClean := rstripChar '*' arr
      match pyIntChars (arrClean.data.take 2) with
      | none => none
      | some ah =>
        match (if 4 ≤ strLen arrClean then pyIntChars ((arrClean.data.drop 2).take 2)
               else some 0) with
        | none => none
        | some am => some (dh * 60 + dm, ah * 60 + am, arr.data.contains '*')

/-- The loop body of `has_redeye_flight` for one leg. -/
def legIsRedeye (leg : Leg) : Bool :=
  match legTimes leg with
  | none => false
  | some (dep, arr, star) =>
    let overnight := star || (decide (1080 ≤ dep) && decide (arr < 720))
    overnight &&
      ((decide (120 ≤ arr) && decide (arr ≤ 359)) ||
       (decide (1200 ≤ dep) && decide (120 ≤ arr) && decide (arr ≤ 480)))

def has_redeye_flight (legs : List Leg) : Bool := legs.any legIsRedeye

/-- `calculate_report_time`: first departure − 60 minutes, wrapped. -/
def calculate_report_time (t : String) : Option ℤ :=
  match pyIntChars (t.data.take 2), pyIntChars ((t.data.drop 2).take 2) with
  | some h, some m =>
    let tot := h * 60 + m - 60
    some (if tot < 0 then tot + 1440 else tot)
  | _, _ => none

/-- `calculate_release_time`: last arrival + 45 minutes, wrapped. -/
def calculate_release_time (t : String) : Option ℤ :=
  match pyIntChars (t.data.take 2), pyIntChars ((t.data.drop 2).take 2) with
  | some h, some m =>
    let tot := h * 60 + m + 45
    some (if 1440 ≤ tot then tot - 1440 else tot)
  | _, _ => none

/-! ## Financial Extractor -/

/-- Python `s[:-n]`. -/
def dropLastN (n : ℕ) (s : String) : String := ⟨s.data.take (s.data.length - n)⟩

/-- Token scan of `get_total_credit` on one TOTAL CREDIT line: find a
`CREDIT` token with a following token ending in `TL` that parses as a
float; on failure keep scanning (the `except ValueError: pass`). -/
def tcScanTokens : List String → Option ℚ
  | [] => none
  | t :: rest =>
    if t = "CREDIT" then
      match rest with
      | nxt :: _ =>
        if endsStr "TL" nxt then
          match pyFloat (dropLastN 2 nxt) with
          | some q => some q
          | none => tcScanTokens rest
        else tcScanTokens rest
      | [] => none
    else tcScanTokens rest

def get_total_credit : List String → Option ℚ
  | [] => none
  | l :: ls =>
    if containsStr "TOTAL CREDIT" l then
      match tcScanTokens (pySplit l) with
      | some q => some q
      | none => get_total_credit ls
    else get_total_credit ls

/-- `H.MM` packed credit converted to whole minutes:
`int(x)*60 + round((x - int(x))*100)`. -/
def crToMinutes (q : ℚ) : ℤ :=
  let w := pyTrunc q
  w * 60 + pyRound ((q - (w : ℚ)) * 100)

/-- One token of the `get_credit_components` scan acting on
`(block, credit)`. -/
def ccStep (p : Option ℚ × Option ℤ) (t : String) : Option ℚ × Option ℤ :=
  if endsStr "BL" t then
    match pyFloat (dropLastN 2 t) with
    | some v => (some v, p.2)
    | none => p
  else if endsStr "CR" t then
    match pyFloat (dropLastN 2 t) with
    | some q => (p.1, some (crToMinutes q))
    | none => p
  else p

/-- `get_credit_components(trip_lines)`: `(block, credit_minutes)` from
the first TOTAL CREDIT line (the loop breaks after it). -/
def get_credit_components : List String → Option ℚ × Option ℤ
  | [] => (none, none)
  | l :: ls =>
    if containsStr "TOTAL CREDIT" l then (pySplit l).foldl ccStep (none, none)
    else get_credit_components ls

/-- Generic single-character splitter (keeping empty parts), used for
Python `s.split(':')`. -/
def splitChAux (sep : Char) : List Char → List Char → List String
  | [], acc => [⟨acc.reverse⟩]
  | c :: cs, acc =>
    if c = sep then ⟨acc.reverse⟩ :: splitChAux sep cs [] else splitChAux sep cs (c :: acc)

/-- `parse_time_to_decimal`: `H:MM` → decimal hours, else plain float. -/
def parse_time_to_decimal (s : String) : Option ℚ :=
  if s.data.contains ':' then
    match splitChAux ':' s.data [] with
    | [a, b] =>
      match pyIntChars a.data, pyIntChars b.data with
      | some h, some m => some ((h : ℚ) + (m : ℚ) / 60)
      | _, _ => none
    | _ => none
  else pyFloat s

structure PayData where
  total_pay : Option ℚ
  sit : Option ℚ
  edp : Option ℚ
  hol : Option ℚ
  carve : Option ℚ
deriving Repr, DecidableEq

/-- Token scan of `get_total_pay` over one TOTAL PAY line. Note that the
`PAY` branch assigns `parse_time_to_decimal`'s result unconditionally
(it may be `none`). -/
def payScan : PayData → List String → PayData
  | pd, [] => pd
  | pd, t :: rest =>
    if t = "PAY" then
      match rest with
      | nxt :: _ =>
        let s := if endsStr "TL" nxt then dropLastN 2 nxt else nxt
        payScan { pd with total_pay := parse_time_to_decimal s } rest
      | [] => payScan pd rest
    else if endsStr "SIT" t then
      match pyFloat (dropLastN 3 t) with
      | some v => payScan { pd with sit := some v } rest
      | none => payScan pd rest
    else if endsStr "EDP" t then
      match pyFloat (dropLastN 3 t) with
      | some v => payScan { pd with edp := some v } rest
      | none => payScan pd rest
    else if endsStr "HOL" t then
      match pyFloat (dropLastN 3 t) with
      | some v => payScan { pd with hol := some v } rest
      | none => payScan pd rest
    else if endsStr "CARVE" t then
      match pyFloat (dropLastN 5 t) with
      | some v => payScan { pd with carve := some v } rest
      | none => payScan pd rest
    else payScan pd rest

/-- `get_total_pay(trip_lines)` (first TOTAL PAY line only). -/
def get_total_pay (trip : List String) : PayData :=
  match trip.find? (fun l => containsStr "TOTAL PAY" l) with
  | some l => payScan ⟨none, none, none, none, none⟩ (pySplit l)
  | none => ⟨none, none, none, none, none⟩

/-! ## Trip number, deadhead flag, block times -/

/-- The regex `#([A-Z]?\d+)` attempted at the head of `l`. -/
def tripNumAt : List Char → Option String
  | '#' :: c :: cs =>
    if isUpperChar c then
      let ds := cs.takeWhile isDigitChar
      if ds.isEmpty then none else some ⟨c :: ds⟩
    else
      let ds := (c :: cs).takeWhile isDigitChar
      if ds.isEmpty then none else some ⟨ds⟩
  | _ => none

/-- `re.search(r'#([A-Z]?\d+)', line)` (group 1). -/
def tripNumSearch : List Char → Option String
  | [] => none
  | c :: cs =>
    match tripNumAt (c :: cs) with
    | some r => some r
    | none => tripNumSearch cs

def get_trip_number : List String → Option String
  | [] => none
  | l :: ls =>
    if startsStr "#" (pyStrip l) then
      match tripNumSearch l.data with
      | some r => some r
      | none => get_trip_number ls
    else get_trip_number ls

/-- 4-token window test of `get_last_leg_is_dh` (this variant also
requires `isupper()`). -/
def dhWindowOk (a b c d : String) : Bool :=
  strLen a = 3 && strIsAlpha a && pyIsUpper a && strLen b = 4 && strIsDigit b &&
  strLen c = 3 && strIsAlpha c && pyIsUpper c && strLen d = 4 && strIsDigit d

def hasDhWindow : List String → Bool
  | a :: b :: c :: d :: rest =>
    dhWindowOk a (rstripChar '*' b) c (rstripChar '*' d) || hasDhWindow (b :: c :: d :: rest)
  | _ => false

/-- `get_last_leg_is_dh(trip_lines)`: on every line with a matching
window, the flag becomes whether that line's tokens contain `DH`; the
final value wins. -/
def get_last_leg_is_dh (trip : List String) : Bool :=
  trip.foldl
    (fun acc l =>
      if strLen l < 10 then acc
      else
        let parts := pySplit l
        if parts.length < 4 then acc
        else if hasDhWindow parts then parts.contains "DH"
        else acc)
    false

/-- Scan the up-to-3 tokens after a flight window for the first
`.`-containing token parsing to a float in `[0.1, 15.0]`. -/
def firstBlockTok : List String → Option ℚ
  | [] => none
  | t :: ts =>
    if t.data.contains '.' then
      match pyFloat t with
      | some v => if 1/10 ≤ v ∧ v ≤ 15 then some v else firstBlockTok ts
      | none => firstBlockTok ts
    else firstBlockTok ts

/-- The overlapping window scan of `get_flight_block_times` (advances one
token at a time; departure time is not `*`-stripped in this variant). -/
def blockScanTokens : List String → List ℚ
  | a :: b :: c :: d :: rest =>
    (if strLen a = 3 && strIsAlpha a && strLen b = 4 && strIsDigit b &&
        strLen c = 3 && strIsAlpha c &&
        (let d2 := rstripChar '*' d
         strLen d2 = 4 && strIsDigit d2) then
      (firstBlockTok (rest.take 3)).toList
    else []) ++ blockScanTokens (b :: c :: d :: rest)
  | _ => []

/-- `get_flight_block_times(trip_lines)`: block times in H.MM packed
format, in source order. -/
def get_flight_block_times (trip : List String) : List ℚ :=
  trip.foldl (fun acc l => if strLen l < 10 then acc else acc ++ blockScanTokens (pySplit l)) []

/-- `hmm_to_decimal`: H.MM packed → decimal hours. -/
def hmmToDecimal (q : ℚ) : ℚ :=
  let h := pyTrunc q
  (h : ℚ) + (pyRound ((q - (h : ℚ)) * 100) : ℚ) / 60

/-! ## Split-Trip Handler -/

def get_previous_month_abbr (bidMonth : String) : String :=
  (([("January", "DEC"), ("February", "JAN"), ("March", "FEB"), ("April", "MAR"),
     ("May", "APR"), ("June", "MAY"), ("July", "JUN"), ("August", "JUL"),
     ("September", "AUG"), ("October", "SEP"), ("November", "OCT"),
     ("December", "NOV")].find? (fun p => p.1 == bidMonth)).map (·.2)).getD ""

/-- Duty-day letter sequence over lines with `len(line) > 3` (the
gate used by the split-trip functions). -/
def tripDayLetterSeq (trip : List String) : List String :=
  trip.foldl
    (fun acc l =>
      if 3 < strLen l then
        let dc := dayColOf l
        if dutyLetters.contains dc then acc ++ [dc] else acc
      else acc)
    []

/-- Some duty letter occurs more than once. -/
def hasRepeat : List String → Bool
  | [] => false
  | x :: xs => xs.contains x || hasRepeat xs

/-- `is_split_trip(trip_lines, bid_month)`. -/
def is_split_trip (trip : List String) (bidMonth : String) : Bool :=
  match trip.find? hasEff with
  | none => false
  | some effLine =>
    let prev := get_previous_month_abbr bidMonth
    if prev = "" || !containsStr prev effLine then false
    else hasRepeat (tripDayLetterSeq trip)

/-- Duty-letter lines with their indices (`day_letters` paired with
`day_line_indices`). -/
def dayLetterIdx (trip : List String) : List (String × ℕ) :=
  trip.enum.filterMap
    (fun p =>
      if 3 < strLen p.2 then
        let dc := dayColOf p.2
        if dutyLetters.contains dc then some (dc, p.1) else none
      else none)

/-- Line index of the first repeated duty letter. -/
def firstRepeatIdx : List String → List (String × ℕ) → Option ℕ
  | _, [] => none
  | seen, (c, i) :: rest =>
    if seen.contains c then some i else firstRepeatIdx (seen ++ [c]) rest

/-- `split_trip_into_sections(trip_lines)`:
`(section1, section2, split_index)` (`none` models `-1`). -/
def split_trip_into_sections (trip : List String) :
    List String × List String × Option ℕ :=
  let pairs := dayLetterIdx trip
  if pairs.isEmpty then (trip, [], none)
  else
    match firstRepeatIdx [] pairs with
    | none => (trip, [], none)
    | some idx =>
      let section1 := trip.take idx ++
        (trip.drop idx).filter
          (fun l => containsStr "TOTAL CREDIT" l || containsStr "TOTAL PAY" l)
      let s2end := match (trip.drop idx).findIdx? (fun l => containsStr "TOTAL CREDIT" l) with
        | some j => idx + j
        | none => trip.length
      let firstDay := ((pairs.head?).map (·.2)).getD idx
      let section2 := trip.take firstDay ++ (trip.drop idx).take (s2end - idx)
      (section1, section2, some idx)

/-- `calculate_credit_for_section(trip_lines)`:
`max(sum of block times in decimal hours, 5.15 * distinct duty days)`. -/
def calculate_credit_for_section (trip : List String) : ℚ :=
  let totalBlk := ((get_flight_block_times trip).map hmmToDecimal).sum
  let dayCount := (tripDayLetterSeq trip).eraseDups.length
  max totalBlk ((5.15 : ℚ) * (dayCount : ℕ))

/-! ## Detailed trip records (`extract_detailed_trip_info`,
`get_detailed_trips`) -/

/-- The fields of the detailed-trip dictionary that carry data (the
purely presentational string renderings `report_time`, `release_time`,
`longest_leg`, `shortest_leg` and `raw_text` are not modelled). -/
structure TripInfo where
  trip_number : Option String
  base : String
  length : ℕ
  days_of_week : List String
  report_time_minutes : Option ℤ
  release_time_minutes : Option ℤ
  total_legs : ℕ
  last_day_legs : ℕ
  total_credit : Option ℚ
  credit_minutes : Option ℤ
  block_hours : Option ℚ
  has_redeye : Bool
  last_leg_dh : Bool
  total_pay : Option ℚ
  sit : Option ℚ
  edp : Option ℚ
  hol : Option ℚ
  carve : Option ℚ
  occurrences : ℤ
deriving Repr, DecidableEq

/-- `extract_detailed_trip_info(trip_lines)` (`occurrences` is attached
by the caller; it is initialised to 0 here). -/
def extract_detailed_trip_info (trip : List String) : TripInfo :=
  let r := determine_trip_length_with_details trip
  let legs := r.2.2
  let comps := get_credit_components trip
  let pay := get_total_pay trip
  { trip_number := get_trip_number trip
    base := match get_first_departure_airport trip with
      | some ap => baseOf ap
      | none => "UNKNOWN"
    length := r.1
    days_of_week := (get_effective_dates trip 2026).1
    report_time_minutes := match legs.head? with
      | some leg => calculate_report_time leg.2.1
      | none => none
    release_time_minutes := match legs.getLast? with
      | some leg => calculate_release_time leg.2.2.2
      | none => none
    total_legs := legs.length
    last_day_legs := r.2.1
    total_credit := get_total_credit trip
    credit_minutes := comps.2
    block_hours := comps.1
    has_redeye := has_redeye_flight legs
    last_leg_dh := get_last_leg_is_dh trip
    total_pay := pay.total_pay
    sit := pay.sit
    edp := pay.edp
    hol := pay.hol
    carve := pay.carve
    occurrences := 0 }

/-- The loop body of `get_detailed_trips` for one trip: the detailed
records this trip contributes (two for a split trip with both sections
nonempty, one for a normal trip, none when filtered out). -/
def perTripEntries (baseFilter bidMonth : String) (bidYear : ℤ)
    (trip : List String) : List TripInfo :=
  match get_first_departure_airport trip with
  | none => []
  | some ap =>
    let base := baseOf ap
    if baseFilter ≠ "All Bases" ∧ base ≠ baseFilter then []
    else if is_split_trip trip bidMonth then
      let s := split_trip_into_sections trip
      let s1 := s.1
      let s2 := s.2.1
      if !s1.isEmpty && !s2.isEmpty then
        let base1 := match get_first_departure_airport s1 with
          | some a => baseOf a
          | none => "UNKNOWN"
        let info1 := extract_detailed_trip_info s1
        let tn1 := info1.trip_number.getD "N/A"
        let info1b := { info1 with
          base := base1
          trip_number := some (if base1 ≠ "UNKNOWN" then tn1 ++ "-1 (" ++ base1 ++ ")"
            else tn1 ++ "-1")
          occurrences := 1 }
        let info2 := extract_detailed_trip_info s2
        let tn2 := info2.trip_number.getD "N/A"
        let info2b := { info2 with
          base := base1
          trip_number := some (if base1 ≠ "UNKNOWN" then tn2 ++ "-2 (" ++ base1 ++ ")"
            else tn2 ++ "-2")
          total_credit := some (calculate_credit_for_section s2)
          total_pay := none
          sit := none
          edp := none
          hol := none
          carve := none
          occurrences := max ((get_effective_dates trip 2026).2.2.2 - 1) 0 }
        [info1b, info2b]
      else []
    else
      [{ extract_detailed_trip_info trip with
          occurrences := (get_effective_dates trip bidYear).2.2.2 }]

/-- `get_detailed_trips(file_content, base_filter, bid_month, bid_year)`. -/
def get_detailed_trips (text : String) (baseFilter bidMonth : String)
    (bidYear : ℤ) : List TripInfo :=
  (parse_trips text).flatMap (perTripEntries baseFilter bidMonth bidYear)

/-! ## Metrics Aggregator (`analyze_file`) -/

/-- The accumulator dictionaries of `analyze_file` (keyed 1–5 in the
source; modelled as total functions that are only ever bumped at the
trip's length). -/
structure AggState where
  total_trips : ℤ
  trip_counts : ℕ → ℤ
  single_leg : ℕ → ℤ
  credit_by_len : ℕ → ℚ
  redeye : ℕ → ℤ
  cfront : ℕ → ℤ
  cback : ℕ → ℤ
  cboth : ℕ → ℤ

def initAgg : AggState :=
  ⟨0, fun _ => 0, fun _ => 0, fun _ => 0, fun _ => 0, fun _ => 0, fun _ => 0, fun _ => 0⟩

def bumpZ (f : ℕ → ℤ) (k : ℕ) (v : ℤ) : ℕ → ℤ :=
  fun x => if x = k then f k + v else f x

def bumpQ (f : ℕ → ℚ) (k : ℕ) (v : ℚ) : ℕ → ℚ :=
  fun x => if x = k then f k + v else f x

/-- The accumulation part of the `analyze_file` loop body, reached once
the trip has passed the base filter and the `length in trip_counts`
check. -/
def stepTripAccum (frontM backM : ℤ) (includeShort : Bool)
    (bidYear : ℤ) (st : AggState) (trip : List String) : AggState :=
      let occ := (get_effective_dates trip bidYear).2.2.2
      let r := determine_trip_length_with_details trip
      let length := r.1
      let lastLegs := r.2.1
      let legs := r.2.2
      let st1 := { st with
          total_trips := st.total_trips + occ
          trip_counts := bumpZ st.trip_counts length occ }
      let st2 := if lastLegs = 1 then
          { st1 with single_leg := bumpZ st1.single_leg length occ }
        else st1
      let st3 := match get_total_credit trip with
        | some c =>
          { st2 with credit_by_len := bumpQ st2.credit_by_len length (c * (occ : ℚ)) }
        | none => st2
      let st4 := if has_redeye_flight legs then
          { st3 with redeye := bumpZ st3.redeye length occ }
        else st3
      if !legs.isEmpty && (includeShort || decide (3 ≤ length)) then
        let report := match legs.head? with
          | some lg => calculate_report_time lg.2.1
          | none => none
        let release := match legs.getLast? with
          | some lg => calculate_release_time lg.2.2.2
          | none => none
        let frontOk := match report with
          | some v => decide (frontM ≤ v)
          | none => false
        let backOk := match release with
          | some v => decide (v ≤ backM)
          | none => false
        let st5 := if frontOk then { st4 with cfront := bumpZ st4.cfront length occ } else st4
        let st6 := if backOk then { st5 with cback := bumpZ st5.cback length occ } else st5
        if frontOk && backOk then { st6 with cboth := bumpZ st6.cboth length occ } else st6
      else st4

/-- The per-trip loop body of `analyze_file`: skip trips with no first
departure airport, trips filtered out by base, and trips whose length is
not a `trip_counts` key (outside 1–5); otherwise accumulate. -/
def stepTrip (baseFilter : String) (frontM backM : ℤ) (includeShort : Bool)
    (bidYear : ℤ) (st : AggState) (trip : List String) : AggState :=
  match get_first_departure_airport trip with
  | none => st
  | some ap =>
    if baseFilter ≠ "All Bases" ∧ baseOf ap ≠ baseFilter then st
    else if (determine_trip_length_with_details trip).1 < 1 ∨
        5 < (determine_trip_length_with_details trip).1 then st
    else stepTripAccum frontM backM includeShort bidYear st trip

/-- The result dictionary of `analyze_file` (per-length entries as
functions on the length). -/
structure AnalysisResult where
  total_trips : ℤ
  trip_counts : ℕ → ℤ
  avg_trip_length : ℚ
  single_leg_pct : ℕ → ℚ
  avg_credit_by_length : ℕ → ℚ
  total_credit_hours : ℚ
  avg_credit_per_trip : ℚ
  avg_credit_per_day_by_length : ℕ → ℚ
  avg_credit_per_day : ℚ
  redeye_pct : ℕ → ℚ
  redeye_rate : ℚ
  front_commute_pct : ℕ → ℚ
  front_commute_rate : ℚ
  back_commute_pct : ℕ → ℚ
  back_commute_rate : ℚ
  both_commute_pct : ℕ → ℚ
  both_commute_rate : ℚ

def sum15Z (f : ℕ → ℤ) : ℤ := f 1 + f 2 + f 3 + f 4 + f 5

def sum15Q (f : ℕ → ℚ) : ℚ := f 1 + f 2 + f 3 + f 4 + f 5

def weightedDays (f : ℕ → ℤ) : ℤ := 1 * f 1 + 2 * f 2 + 3 * f 3 + 4 * f 4 + 5 * f 5

/-- The percentage/average computation at the end of `analyze_file`,
with every division guarded by a `> 0` test on its denominator exactly
as in the source. -/
def finalizeAgg (includeShort : Bool) (st : AggState) : AnalysisResult :=
  let total := st.total_trips
  let avgCredit := fun l =>
    if 0 < st.trip_counts l then st.credit_by_len l / ((st.trip_counts l : ℤ) : ℚ) else 0
  let totalCredit := sum15Q st.credit_by_len
  let totalDays := weightedDays st.trip_counts
  let commuteTotal := if includeShort then total
    else st.trip_counts 3 + st.trip_counts 4 + st.trip_counts 5
  { total_trips := total
    trip_counts := st.trip_counts
    avg_trip_length :=
      if 0 < total then ((weightedDays st.trip_counts : ℤ) : ℚ) / ((total : ℤ) : ℚ) else 0
    single_leg_pct := fun l =>
      if 0 < st.trip_counts l then
        ((st.single_leg l : ℤ) : ℚ) / ((st.trip_counts l : ℤ) : ℚ) * 100
      else 0
    avg_credit_by_length := avgCredit
    total_credit_hours := totalCredit
    avg_credit_per_trip := if 0 < total then totalCredit / ((total : ℤ) : ℚ) else 0
    avg_credit_per_day_by_length := fun l =>
      if 0 < avgCredit l then avgCredit l / (l : ℚ) else 0
    avg_credit_per_day := if 0 < totalDays then totalCredit / ((totalDays : ℤ) : ℚ) else 0
    redeye_pct := fun l =>
      if 0 < st.trip_counts l then
        ((st.redeye l : ℤ) : ℚ) / ((st.trip_counts l : ℤ) : ℚ) * 100
      else 0
    redeye_rate :=
      if 0 < total then ((sum15Z st.redeye : ℤ) : ℚ) / ((total : ℤ) : ℚ) * 100 else 0
    front_commute_pct := fun l =>
      if 0 < st.trip_counts l then
        ((st.cfront l : ℤ) : ℚ) / ((st.trip_counts l : ℤ) : ℚ) * 100
      else 0
    front_commute_rate :=
      if 0 < commuteTotal then
        ((sum15Z st.cfront : ℤ) : ℚ) / ((commuteTotal : ℤ) : ℚ) * 100
      else 0
    back_commute_pct := fun l =>
      if 0 < st.trip_counts l then
        ((st.cback l : ℤ) : ℚ) / ((st.trip_counts l : ℤ) : ℚ) * 100
      else 0
    back_commute_rate :=
      if 0 < commuteTotal then
        ((sum15Z st.cback : ℤ) : ℚ) / ((commuteTotal : ℤ) : ℚ) * 100
      else 0
    both_commute_pct := fun l =>
      if 0 < st.trip_counts l then
        ((st.cboth l : ℤ) : ℚ) / ((st.trip_counts l : ℤ) : ℚ) * 100
      else 0
    both_commute_rate :=
      if 0 < commuteTotal then
        ((sum15Z st.cboth : ℤ) : ℚ) / ((commuteTotal : ℤ) : ℚ) * 100
      else 0 }

/-- `analyze_file` folded over an explicit trip list. -/
def analyzeTripsList (baseFilter : String) (frontM backM : ℤ) (includeShort : Bool)
    (bidYear : ℤ) (trips : List (List String)) : AnalysisResult :=
  finalizeAgg includeShort
    (trips.foldl (stepTrip baseFilter frontM backM includeShort bidYear) initAgg)

/-- `analyze_file(file_content, base_filter, front_commute_minutes,
back_commute_minutes, include_short_trips_commute, bid_year)`. -/
def analyze_file (text : String) (baseFilter : String) (frontM backM : ℤ)
    (includeShort : Bool) (bidYear : ℤ) : AnalysisResult :=
  analyzeTripsList baseFilter frontM backM includeShort bidYear (parse_trips text)

/-! ## Specification-side definitions

These phrase the properties claimed by the specification in independent
mathematical form (interval counts as `Finset` cardinalities, last duty
letter as the last element of the marker sequence, …), to be compared
with the engine definitions above. -/

/-- Number of calendar dates in the inclusive range `[s, e]` whose
weekday lies in `targets` (spec-side count, as a `Finset` cardinality
over day numbers). -/
def specMatchCount (s e : PyDate) (targets : List ℕ) : ℕ :=
  ((Finset.Icc (rataDie s) (rataDie e)).filter (fun rd => wdOfRd rd ∈ targets)).card

/-- Spec-side count of EXCEPT decrements with the source's hardcoded
exception years: one per extracted `MMM DD` pair (with multiplicity)
whose date, taken in year 2025 for months ≥ 10 and 2026 otherwise, is a
counted occurrence date. -/
def specExceptHits (exLine : Option String) (s e : PyDate) (targets : List ℕ) : ℕ :=
  match exLine with
  | none => 0
  | some ex =>
    (exceptFindall ex).countP (fun md =>
      match mkDate (hardExceptYear md.1) md.1 md.2 with
      | some dt =>
        decide (rataDie dt ∈
          (Finset.Icc (rataDie s) (rataDie e)).filter (fun rd => wdOfRd rd ∈ targets))
      | none => false)

/-- The occurrence count as claim C1 reads it: matched dates in range
minus every EXCEPT entry whose date — taken in whichever of the range's
years makes it a counted occurrence — falls in the counted set. -/
def claimC1Count (trip : List String) (bidYear : ℤ) : Option ℤ :=
  match headerExceptOf trip with
  | (none, _) => none
  | (some h, exLine) =>
    match rangeResolve h bidYear with
    | none => none
    | some (s, e) =>
      let targets := (dowFindall h).filterMap dowNum
      let matched :=
        ((List.range (rataDie e + 1 - rataDie s)).map (fun i => rataDie s + i)).filter
          (fun rd => targets.contains (wdOfRd rd))
      let hits := match exLine with
        | none => 0
        | some ex =>
          (exceptFindall ex).countP (fun md =>
            [s.1, e.1].any (fun yy =>
              match mkDate (yy : ℤ) md.1 md.2 with
              | some dt => matched.contains (rataDie dt)
              | none => false))
      some ((matched.length : ℤ) - (hits : ℤ))

/-- The hardcoded-year day numbers of the valid EXCEPT dates
(used to state when over-decrementing is impossible). -/
def exceptRdsOf (exLine : Option String) : List ℕ :=
  match exLine with
  | none => []
  | some ex =>
    (exceptFindall ex).filterMap (fun md =>
      match mkDate (hardExceptYear md.1) md.1 md.2 with
      | some dt => some (rataDie dt)
      | none => none)

/-- Spec-side sequence of duty-day marker letters, in line order, over
lines long enough to be inspected. -/
def specLetters (trip : List String) : List String :=
  (trip.filter (fun l => 10 ≤ strLen l)).filterMap (fun l =>
    if dutyLetters.contains (dayColOf l) then some (dayColOf l) else none)

/-- Spec-side "last duty-day letter seen". -/
def lastDutyLetterSpec (trip : List String) : Option String :=
  (specLetters trip).getLast?

/-- Spec-side red-eye day-extension condition: the final flight leg
departs at hour ≥ 20 and arrives at hour ≥ 2. -/
def redeyeExtensionSpec (legs : List Leg) : Bool :=
  match legs.getLast? with
  | none => false
  | some leg =>
    match pyIntChars (leg.2.1.data.take 2), pyIntChars (leg.2.2.2.data.take 2) with
    | some dh, some ah => decide (20 ≤ dh) && decide (2 ≤ ah)
    | _, _ => false

/-- Spec-side red-eye predicate for a single leg (claim C3's clauses over
the parsed minute values): the leg is overnight (next-day marker, or
departure ≥ 18:00 with arrival before 12:00) and either arrives inside
the 02:00–05:59 window or departs ≥ 20:00 arriving within 02:00–08:00. -/
def redeyeSpecProp (leg : Leg) : Prop :=
  ∃ dep arr star, legTimes leg = some (dep, arr, star) ∧
    (star = true ∨ (1080 ≤ dep ∧ arr < 720)) ∧
    ((120 ≤ arr ∧ arr ≤ 359) ∨ (1200 ≤ dep ∧ 120 ≤ arr ∧ arr ≤ 480))

/-- Spec-side sum of a section's leg block times in decimal hours. -/
def blockSumSpec (s : List String) : ℚ :=
  ((get_flight_block_times s).map hmmToDecimal).sum

/-- Spec-side number of distinct duty-day letters of a section. -/
def distinctDutyDays (s : List String) : ℕ := (tripDayLetterSeq s).eraseDups.length

/-- Claim C6's description of a trip span: begins at a line containing
`EFFECTIVE` and ends, inclusive, at the next line whose trimmed content
starts with `---` (no exclusion of further `EFFECTIVE` lines inside). -/
def claimSpanGroup (ls g : List String) : Prop :=
  ∃ pre e mid t post, ls = pre ++ e :: (mid ++ t :: post) ∧ hasEff e = true ∧
    (∀ l ∈ mid, isTerm l = false) ∧ isTerm t = true ∧ g = e :: mid ++ [t]

/-! ## Concrete inputs used by witnesses and counterexamples -/

def lineDutyA : String := " A  1 JFK 0800 BOS 0900  1.00          "

def lineDutyB : String := " B  2 BOS 1000 JFK 1100  1.00          "

def lineDutyC : String := " C  1 JFK 0800 BOS 0900  1.00          "

def lineDutyD : String := " D  1 BOS 0800 JFK 0900  1.00          "

def lineDutyE : String := " E  1 JFK 2030 LAX 0230  6.00          "

/-- A split trip: the EFFECTIVE line names JAN (the month before a
February bid month) and the duty letters repeat (A B A B). -/
def splitTripLines : List String :=
  ["#100 EFFECTIVE JAN26-FEB. 03 MO TU", lineDutyA, lineDutyB, lineDutyA, lineDutyB,
   "TOTAL CREDIT 10.30TL 7.49BL 2.41CR", "TOTAL PAY 15:30TL", "---"]

/-- A trip whose EFFECTIVE range lies in October with an October EXCEPT
date (exercising the hardcoded exception year). -/
def tripOctRange : List String :=
  ["EFFECTIVE OCT06-OCT. 10 MO TU WE TH FR", " EXCEPT OCT 07", "---"]

/-- The specification's own worked example range with one exception. -/
def tripJanRange : List String :=
  ["EFFECTIVE JAN05-JAN. 10 MO WE FR", " EXCEPT JAN 05", "---"]

/-- A reversed date range with no weekday tokens. -/
def tripBackwards : List String := ["EFFECTIVE JAN05-JAN. 01"]

/-- An unparseable date (Feb 30). -/
def tripFeb30 : List String := ["EFFECTIVE MO FEB30-FEB. 28"]

/-- A five-day trip whose final leg triggers the red-eye day extension,
giving computed length 6. -/
def tripSixDay : List String :=
  ["#200 EFFECTIVE JAN05 ONLY", lineDutyA, lineDutyB, lineDutyC, lineDutyD,
   lineDutyE, "---"]

/-- Input whose first EFFECTIVE line is followed by another EFFECTIVE
line before the first terminator. -/
def twoEffText : String := "EFFECTIVE A\nx\nEFFECTIVE B\ny\n---"

/-- Input with one complete trip followed by an unterminated EFFECTIVE
span. -/
def unterminatedText : String := "EFFECTIVE ok\n---\nEFFECTIVE bad\ntail"

/-! ## Theorems -/

/- The Batteries rational operations are `@[irreducible]`, which blocks
`decide` on concrete rational computations; restore default
reducibility for them in this development. -/
attribute [local semireducible] Rat.add Rat.sub Rat.mul Rat.inv Rat.ofScientific

theorem closeSpan_nil (acc g : List String) : ¬ closeSpan acc [] g := by
  rintro ⟨mid, t, post, h, -⟩
  cases mid <;> simp at h

theorem spanGroup_nil (g : List String) : ¬ spanGroup [] g := by
  rintro ⟨pre, e, rest, h, -⟩
  cases pre <;> simp at h

theorem closeSpan_cons (acc : List String) (l : String) (ls g : List String) :
    closeSpan acc (l :: ls) g ↔
      (hasEff l = false ∧ isTerm l = true ∧ g = acc ++ [l]) ∨
      (hasEff l = false ∧ isTerm l = false ∧ closeSpan (acc ++ [l]) ls g) := by
  constructor
  · rintro ⟨mid, t, post, hsplit, hmid, hterm, heff, hg⟩
    cases mid with
    | nil =>
      simp only [List.nil_append, List.cons.injEq] at hsplit
      left
      refine ⟨hsplit.1 ▸ heff, hsplit.1 ▸ hterm, ?_⟩
      simpa [hsplit.1] using hg
    | cons x mid2 =>
      simp only [List.cons_append, List.cons.injEq] at hsplit
      right
      have hx := hmid x (by simp)
      refine ⟨hsplit.1 ▸ hx.1, hsplit.1 ▸ hx.2, mid2, t, post, hsplit.2, ?_, hterm, heff, ?_⟩
      · intro y hy; exact hmid y (by simp [hy])
      · simp [hg, hsplit.1]
  · rintro (⟨heff, hterm, hg⟩ | ⟨heff, hterm, mid, t, post, hsplit, hmid, htt, het, hg⟩)
    · exact ⟨[], l, ls, by simp, by simp [midOk], hterm, heff, by simp [hg]⟩
    · refine ⟨l :: mid, t, post, by simp [hsplit], ?_, htt, het, by simp [hg]⟩
      intro y hy
      rcases List.mem_cons.mp hy with rfl | hy2
      · exact ⟨heff, hterm⟩
      · exact hmid y hy2

theorem spanGroup_cons (l : String) (ls g : List String) :
    spanGroup (l :: ls) g ↔
      (hasEff l = true ∧ closeSpan [l] ls g) ∨ spanGroup ls g := by
  constructor
  · rintro ⟨pre, e, rest, hsplit, heff, hclose⟩
    cases pre with
    | nil =>
      simp only [List.nil_append, List.cons.injEq] at hsplit
      exact Or.inl ⟨hsplit.1 ▸ heff, hsplit.1 ▸ hsplit.2 ▸ hclose⟩
    | cons x pre2 =>
      simp only [List.cons_append, List.cons.injEq] at hsplit
      exact Or.inr ⟨pre2, e, rest, hsplit.2, heff, hclose⟩
  · rintro (⟨heff, hclose⟩ | ⟨pre, e, rest, hsplit, heff, hclose⟩)
    · exact ⟨[], l, ls, by simp, heff, hclose⟩
    · exact ⟨l :: pre, e, rest, by simp [hsplit], heff, hclose⟩

/-- Membership characterisation of the `parse_trips` scanning loop, in
both scanner states simultaneously. -/
theorem parseTripsAux_mem (ls : List String) :
    (∀ acc g, g ∈ parseTripsAux ls acc true ↔ closeSpan acc ls g ∨ spanGroup ls g) ∧
    (∀ g, g ∈ parseTripsAux ls [] false ↔ spanGroup ls g) := by
  induction ls with
  | nil =>
    constructor
    · intro acc g
      simp [parseTripsAux, closeSpan_nil, spanGroup_nil]
    · intro g
      simp [parseTripsAux, spanGroup_nil]
  | cons l ls ih =>
    have ihT := ih.1
    have ihF := ih.2
    constructor
    · intro acc g
      by_cases he : hasEff l
      · rw [show parseTripsAux (l :: ls) acc true = parseTripsAux ls [l] true by
          simp [parseTripsAux, he]]
        rw [ihT, spanGroup_cons, closeSpan_cons]
        simp [he]
      · by_cases ht : isTerm l
        · rw [show parseTripsAux (l :: ls) acc true
              = (acc ++ [l]) :: parseTripsAux ls [] false by
            simp [parseTripsAux, he, ht]]
          rw [List.mem_cons, ihF, spanGroup_cons, closeSpan_cons]
          simp [he, ht]
        · rw [show parseTripsAux (l :: ls) acc true
              = parseTripsAux ls (acc ++ [l]) true by
            simp [parseTripsAux, he, ht]]
          rw [ihT, spanGroup_cons, closeSpan_cons]
          simp [he, ht]
    · intro g
      by_cases he : hasEff l
      · rw [show parseTripsAux (l :: ls) [] false = parseTripsAux ls [l] true by
          simp [parseTripsAux, he]]
        rw [ihT, spanGroup_cons]
        simp [he]
      · rw [show parseTripsAux (l :: ls) [] false = parseTripsAux ls [] false by
          simp [parseTripsAux, he]]
        rw [ihF, spanGroup_cons]
        simp [he]

theorem parseTripsLines_mem (lines g : List String) :
    g ∈ parseTripsLines lines ↔ spanGroup lines g :=
  (parseTripsAux_mem lines).2 g

theorem runState_cons (l : String) (xs : List String) (p : List String × Bool) :
    runState (l :: xs) p = runState xs (stepState p l) := rfl

theorem parseTripsAux_append (xs ys : List String) :
    ∀ acc st, parseTripsAux (xs ++ ys) acc st =
      parseTripsAux xs acc st ++
        parseTripsAux ys (runState xs (acc, st)).1 (runState xs (acc, st)).2 := by
  induction xs with
  | nil => intro acc st; simp [parseTripsAux, runState]
  | cons l xs ih =>
    intro acc st
    by_cases he : hasEff l
    · have h1 : parseTripsAux ((l :: xs) ++ ys) acc st = parseTripsAux (xs ++ ys) [l] true := by
        simp [parseTripsAux, he]
      have h2 : parseTripsAux (l :: xs) acc st = parseTripsAux xs [l] true := by
        simp [parseTripsAux, he]
      have h3 : runState (l :: xs) (acc, st) = runState xs ([l], true) := by
        rw [runState_cons]; simp [stepState, he]
      rw [h1, h2, h3, ih]
    · cases st
      · have h1 : parseTripsAux ((l :: xs) ++ ys) acc false
            = parseTripsAux (xs ++ ys) acc false := by
          simp [parseTripsAux, he]
        have h2 : parseTripsAux (l :: xs) acc false = parseTripsAux xs acc false := by
          simp [parseTripsAux, he]
        have h3 : runState (l :: xs) (acc, false) = runState xs (acc, false) := by
          rw [runState_cons]; simp [stepState, he]
        rw [h1, h2, h3, ih]
      · by_cases ht : isTerm l
        · have h1 : parseTripsAux ((l :: xs) ++ ys) acc true
              = (acc ++ [l]) :: parseTripsAux (xs ++ ys) [] false := by
            simp [parseTripsAux, he, ht]
          have h2 : parseTripsAux (l :: xs) acc true
              = (acc ++ [l]) :: parseTripsAux xs [] false := by
            simp [parseTripsAux, he, ht]
          have h3 : runState (l :: xs) (acc, true) = runState xs ([], false) := by
            rw [runState_cons]; simp [stepState, he, ht]
          rw [h1, h2, h3, ih, List.cons_append]
        · have h1 : parseTripsAux ((l :: xs) ++ ys) acc true
              = parseTripsAux (xs ++ ys) (acc ++ [l]) true := by
            simp [parseTripsAux, he, ht]
          have h2 : parseTripsAux (l :: xs) acc true = parseTripsAux xs (acc ++ [l]) true := by
            simp [parseTripsAux, he, ht]
          have h3 : runState (l :: xs) (acc, true) = runState xs (acc ++ [l], true) := by
            rw [runState_cons]; simp [stepState, he, ht]
          rw [h1, h2, h3, ih]

/-- In the in-trip state, input containing no terminator line never emits
a group. -/
theorem parseTripsAux_true_no_term (ls : List String)
    (h : ∀ l ∈ ls, isTerm l = false) :
    ∀ acc, parseTripsAux ls acc true = [] := by
  induction ls with
  | nil => intro acc; simp [parseTripsAux]
  | cons l ls ih =>
    intro acc
    have hl : isTerm l = false := h l (by simp)
    have hrest : ∀ x ∈ ls, isTerm x = false := fun x hx => h x (by simp [hx])
    by_cases he : hasEff l
    · simp [parseTripsAux, he, ih hrest]
    · simp [parseTripsAux, he, hl, ih hrest]

/-- If no line contains `EFFECTIVE`, the scanner never leaves the idle
state and emits nothing. -/
theorem parseTripsAux_no_eff (ls : List String) (h : ∀ l ∈ ls, hasEff l = false) :
    ∀ acc, parseTripsAux ls acc false = [] := by
  induction ls with
  | nil => intro acc; simp [parseTripsAux]
  | cons l ls ih =>
    intro acc
    have hl : hasEff l = false := h l (by simp)
    have hrest : ∀ x ∈ ls, hasEff x = false := fun x hx => h x (by simp [hx])
    simp [parseTripsAux, hl, ih hrest]

/-! ### Claim C6 -/

/-- C6 (amended): `parse_trips` returns exactly the line groups that
begin at a line containing `EFFECTIVE` with no further
`EFFECTIVE`-containing line and no earlier terminator strictly inside
the group (a later `EFFECTIVE` line restarts the group), and end,
inclusive, at the next line whose trimmed content starts with `---` and
does not itself contain `EFFECTIVE`; every line outside such a span
appears in no returned group, and a file containing no `EFFECTIVE`
marker yields an empty list rather than an error. -/
theorem parse_trips_returns_exactly_spans (text : String) :
    (∀ g, g ∈ parse_trips text ↔ spanGroup (splitLines text) g) ∧
    ((∀ l ∈ splitLines text, hasEff l = false) → parse_trips text = []) := by
  constructor
  · intro g
    exact parseTripsLines_mem (splitLines text) g
  · intro h
    exact parseTripsAux_no_eff (splitLines text) h []

theorem parse_trips_returns_exactly_spans_witness :
    (∀ l ∈ splitLines "alpha\nbeta", hasEff l = false) ∧
    parse_trips "alpha\nbeta" = [] ∧
    (["EFFECTIVE one", "b", "---"] ∈ parse_trips "a\nEFFECTIVE one\nb\n---\nc" ↔
      spanGroup (splitLines "a\nEFFECTIVE one\nb\n---\nc")
        ["EFFECTIVE one", "b", "---"]) :=
  ⟨by decide, (parse_trips_returns_exactly_spans "alpha\nbeta").2 (by decide),
   (parse_trips_returns_exactly_spans "a\nEFFECTIVE one\nb\n---\nc").1 _⟩

/-- C6 (counterexample): on an input whose first `EFFECTIVE` line is
followed by a second `EFFECTIVE` line before the terminator, the group
described by the claim (full span from the first `EFFECTIVE` line to the
next `---` line) is not among the groups `parse_trips` returns —
the scanner restarted at the second `EFFECTIVE` line. -/
theorem parse_trips_claim_span_not_returned :
    claimSpanGroup (splitLines twoEffText)
      ["EFFECTIVE A", "x", "EFFECTIVE B", "y", "---"] ∧
    parse_trips twoEffText = [["EFFECTIVE B", "y", "---"]] ∧
    ["EFFECTIVE A", "x", "EFFECTIVE B", "y", "---"] ∉ parse_trips twoEffText := by
  refine ⟨⟨[], "EFFECTIVE A", ["x", "EFFECTIVE B", "y"], "---", [], ?_, ?_, ?_, ?_, ?_⟩, ?_, ?_⟩
  · decide
  · decide
  · decide
  · decide
  · decide
  · decide
  · decide

/-! ### Claim C10 -/

/-- C10: when a line containing `EFFECTIVE` is not followed by any later
line whose trimmed content starts with `---`, the unterminated trailing
span is silently dropped: `parse_trips` of the whole input equals the
scan of the lines before that `EFFECTIVE` line. -/
theorem parse_trips_drops_unterminated (text : String) (pre : List String)
    (e : String) (rest : List String)
    (hsplit : splitLines text = pre ++ e :: rest)
    (he : hasEff e = true)
    (hrest : ∀ l ∈ rest, isTerm l = false) :
    parse_trips text = parseTripsLines pre := by
  unfold parse_trips parseTripsLines
  rw [hsplit, parseTripsAux_append]
  have hsuffix : parseTripsAux (e :: rest) (runState pre ([], false)).1
      (runState pre ([], false)).2 = [] := by
    have htail : parseTripsAux rest [e] true = [] :=
      parseTripsAux_true_no_term rest hrest [e]
    simp [parseTripsAux, he, htail]
  rw [hsuffix, List.append_nil]

theorem parse_trips_drops_unterminated_witness :
    splitLines unterminatedText =
      ["EFFECTIVE ok", "---"] ++ "EFFECTIVE bad" :: ["tail"] ∧
    hasEff "EFFECTIVE bad" = true ∧
    (∀ l ∈ ["tail"], isTerm l = false) ∧
    parse_trips unterminatedText = parseTripsLines ["EFFECTIVE ok", "---"] ∧
    parse_trips unterminatedText = [["EFFECTIVE ok", "---"]] :=
  ⟨by decide, by decide, by decide,
   parse_trips_drops_unterminated unterminatedText ["EFFECTIVE ok", "---"]
     "EFFECTIVE bad" ["tail"] (by decide) (by decide) (by decide),
   by decide⟩

/-! ### Claim C7 -/

/-- C7: on a TOTAL CREDIT line, the token after `CREDIT` with trailing
`TL` stripped parses as the decimal-hours total credit, the `BL`-suffixed
token as decimal-hours block, and the `CR`-suffixed token converts to
whole minutes as `whole_hours*60 + round(frac*100)`; in particular
`TOTAL CREDIT 10.30TL 7.49BL 2.41CR` yields total credit 10.30,
block 7.49 and 161 credit minutes (and a second instance checks the
same extraction on different values). -/
theorem total_credit_line_extraction :
    get_total_credit ["TOTAL CREDIT 10.30TL 7.49BL 2.41CR"] = some (10.30 : ℚ) ∧
    get_credit_components ["TOTAL CREDIT 10.30TL 7.49BL 2.41CR"] =
      (some (7.49 : ℚ), some 161) ∧
    get_total_credit ["TOTAL CREDIT 5.00TL 3.20BL 0.30CR"] = some (5.00 : ℚ) ∧
    get_credit_components ["TOTAL CREDIT 5.00TL 3.20BL 0.30CR"] =
      (some (3.20 : ℚ), some 30) := by
  refine ⟨?_, ?_, ?_, ?_⟩ <;> decide

/-! ### Claim C2 -/

theorem getLast?_cons_or {α : Type} (a : α) (l : List α) :
    (a :: l).getLast? = l.getLast?.or (some a) := by
  induction l generalizing a with
  | nil => rfl
  | cons b l ih =>
    rw [List.getLast?_cons_cons, ih b]
    cases hl : l.getLast? <;> simp

theorem dtlStep_lastDay (st : DtlState) (l : String) :
    (dtlStep st l).lastDay =
      if 10 ≤ strLen l ∧ dayColOf l ∈ dutyLetters then some (dayColOf l)
      else st.lastDay := by
  by_cases h1 : strLen l < 10
  · have hno : ¬(10 ≤ strLen l ∧ dayColOf l ∈ dutyLetters) := fun hc => by omega
    simp [dtlStep, h1, hno]
  · have h10 : 10 ≤ strLen l := by omega
    by_cases h2 : dayColOf l ∈ dutyLetters
    · by_cases h3 : 30 < strLen l <;> simp [dtlStep, h1, h2, h3, h10]
    · have hno : ¬(10 ≤ strLen l ∧ dayColOf l ∈ dutyLetters) := fun hc => h2 hc.2
      by_cases h3 : 30 < strLen l <;>
        cases hc : st.curDay <;> simp [dtlStep, h1, h2, h3, hc, hno]

theorem dtl_lastDay_fold (trip : List String) :
    ∀ st : DtlState,
      (trip.foldl dtlStep st).lastDay = (specLetters trip).getLast?.or st.lastDay := by
  induction trip with
  | nil => intro st; simp [specLetters]
  | cons l ls ih =>
    intro st
    rw [List.foldl_cons, ih]
    by_cases hlen : 10 ≤ strLen l
    · by_cases hday : dayColOf l ∈ dutyLetters
      · have hspec : specLetters (l :: ls) = dayColOf l :: specLetters ls := by
          simp [specLetters, hlen, hday]
        rw [hspec, getLast?_cons_or, Option.or_assoc, dtlStep_lastDay,
          if_pos ⟨hlen, hday⟩]
        simp
      · have hspec : specLetters (l :: ls) = specLetters ls := by
          simp [specLetters, hlen, hday]
        rw [hspec, dtlStep_lastDay, if_neg (fun hc => hday hc.2)]
    · have hspec : specLetters (l :: ls) = specLetters ls := by
        simp [specLetters, hlen]
      rw [hspec, dtlStep_lastDay, if_neg (fun hc => hlen hc.1)]

/-- C2: the trip length returned by `determine_trip_length_with_details`
equals the numeric rank (A=1 … E=5) of the last duty-day letter seen,
incremented by exactly 1 — and never more — when the final flight leg's
departure hour is ≥ 20 and its arrival hour is ≥ 2, and exactly the rank
otherwise. -/
theorem trip_length_rule (trip : List String) (c : String)
    (h : lastDutyLetterSpec trip = some c) :
    (determine_trip_length_with_details trip).1 =
      dayRank c +
        (if redeyeExtensionSpec (determine_trip_length_with_details trip).2.2 then 1
         else 0) := by
  have hlast : (trip.foldl dtlStep ⟨none, none, fun _ => 0, []⟩).lastDay = some c := by
    rw [dtl_lastDay_fold]
    rw [lastDutyLetterSpec] at h
    rw [h]
    rfl
  unfold determine_trip_length_with_details redeyeExtensionSpec dtlFinish
  rw [hlast]
  cases hleg : (trip.foldl dtlStep ⟨none, none, fun _ => 0, []⟩).legs.getLast? with
  | none => simp [hleg]
  | some leg =>
    cases hdh : pyIntChars (leg.2.1.data.take 2) with
    | none => simp [hleg, hdh]
    | some dh =>
      cases hah : pyIntChars (leg.2.2.2.data.take 2) with
      | none => simp [hleg, hdh, hah]
      | some ah =>
        by_cases hc : 20 ≤ dh ∧ 2 ≤ ah
        · simp [hleg, hdh, hah, hc, hc.1, hc.2]
        · have hb : ¬(decide (20 ≤ dh) && decide (2 ≤ ah)) = true := by
            simp only [Bool.and_eq_true, decide_eq_true_eq]
            exact hc
          simp [hleg, hdh, hah, hc, hb]

theorem trip_length_rule_witness :
    lastDutyLetterSpec tripSixDay = some "E" ∧
    (determine_trip_length_with_details tripSixDay).1 = 6 ∧
    (determine_trip_length_with_details tripSixDay).1 =
      dayRank "E" +
        (if redeyeExtensionSpec (determine_trip_length_with_details tripSixDay).2.2 then 1
         else 0) :=
  ⟨by decide, by decide, trip_length_rule tripSixDay "E" (by decide)⟩

/-! ### Claim C3 -/

theorem legIsRedeye_iff (leg : Leg) :
    legIsRedeye leg = true ↔ redeyeSpecProp leg := by
  unfold legIsRedeye redeyeSpecProp
  cases h : legTimes leg with
  | none => simp
  | some v =>
    obtain ⟨dep, arr, star⟩ := v
    simp only [Option.some.injEq, Prod.mk.injEq, Bool.and_eq_true, Bool.or_eq_true,
      decide_eq_true_eq]
    constructor
    · rintro ⟨h1, h2⟩
      exact ⟨dep, arr, star, ⟨rfl, rfl, rfl⟩, h1, by tauto⟩
    · rintro ⟨d2, a2, s2, ⟨rfl, rfl, rfl⟩, h1, h2⟩
      exact ⟨h1, by tauto⟩

/-- C3: `has_redeye_flight` returns true iff some leg is an overnight
flight (trailing `*` next-day marker, or departure ≥ 18:00 with arrival
before 12:00) that either arrives within 02:00–05:59 inclusive or
departs ≥ 20:00 and arrives within 02:00–08:00; in particular the leg
departing 2230 and arriving 0145* is not a red-eye. -/
theorem has_redeye_flight_iff :
    (∀ legs : List Leg,
      has_redeye_flight legs = true ↔ ∃ leg ∈ legs, redeyeSpecProp leg) ∧
    has_redeye_flight [("LAX", "2230", "JFK", "0145*")] = false := by
  constructor
  · intro legs
    rw [has_redeye_flight, List.any_eq_true]
    exact exists_congr fun leg => and_congr_right fun _ => legIsRedeye_iff leg
  · decide

/-! ### Claim C9 -/

theorem stepTrip_skip (bf : String) (fm bm : ℤ) (inc : Bool) (year : ℤ)
    (st : AggState) (trip : List String)
    (h : (determine_trip_length_with_details trip).1 < 1 ∨
      5 < (determine_trip_length_with_details trip).1) :
    stepTrip bf fm bm inc year st trip = st := by
  unfold stepTrip
  cases hfa : get_first_departure_airport trip with
  | none => rfl
  | some ap =>
    by_cases hf : bf ≠ "All Bases" ∧ baseOf ap ≠ bf
    · simp only [if_pos hf]
    · simp only [if_neg hf, if_pos h]

/-- C9: a trip whose computed length falls outside 1–5 (for example
length 0 with no duty markers, or length 6 from an E trip extended by the
red-eye rule) is skipped entirely by `analyze_file`: removing it from the
trip list leaves every aggregate unchanged. -/
theorem analyze_skips_out_of_range_lengths (bf : String) (fm bm : ℤ) (inc : Bool)
    (year : ℤ) (pre post : List (List String)) (trip : List String)
    (h : (determine_trip_length_with_details trip).1 < 1 ∨
      5 < (determine_trip_length_with_details trip).1) :
    analyzeTripsList bf fm bm inc year (pre ++ trip :: post) =
      analyzeTripsList bf fm bm inc year (pre ++ post) := by
  unfold analyzeTripsList
  rw [List.foldl_append, List.foldl_append, List.foldl_cons,
    stepTrip_skip bf fm bm inc year _ trip h]

theorem analyze_skips_out_of_range_lengths_witness :
    ((determine_trip_length_with_details tripSixDay).1 < 1 ∨
      5 < (determine_trip_length_with_details tripSixDay).1) ∧
    analyzeTripsList "All Bases" 0 0 false 2026 [tripSixDay] =
      analyzeTripsList "All Bases" 0 0 false 2026 [] :=
  ⟨Or.inr (by decide),
   analyze_skips_out_of_range_lengths "All Bases" 0 0 false 2026 [] [] tripSixDay
     (Or.inr (by decide))⟩

/-! ### Claim C8 -/

/-- C8: every percentage and average field of `analyze_file` whose
denominator is zero equals 0 (the division is guarded in the source);
in particular no division-by-zero failure is possible — the computation
is total. -/
theorem analyze_file_zero_denominators (text : String) (bf : String) (fm bm : ℤ)
    (inc : Bool) (year : ℤ) (r : AnalysisResult)
    (hr : r = analyze_file text bf fm bm inc year) :
    (r.total_trips = 0 →
      r.avg_trip_length = 0 ∧ r.avg_credit_per_trip = 0 ∧ r.redeye_rate = 0) ∧
    (∀ l, r.trip_counts l = 0 →
      r.single_leg_pct l = 0 ∧ r.avg_credit_by_length l = 0 ∧ r.redeye_pct l = 0 ∧
      r.front_commute_pct l = 0 ∧ r.back_commute_pct l = 0 ∧
      r.both_commute_pct l = 0) ∧
    ((if inc then r.total_trips
      else r.trip_counts 3 + r.trip_counts 4 + r.trip_counts 5) = 0 →
      r.front_commute_rate = 0 ∧ r.back_commute_rate = 0 ∧ r.both_commute_rate = 0) ∧
    (weightedDays r.trip_counts = 0 → r.avg_credit_per_day = 0) := by
  subst hr
  refine ⟨fun h0 => ?_, fun l hl => ?_, fun hc => ?_, fun hd => ?_⟩
  · replace h0 :
        (List.foldl (stepTrip bf fm bm inc year) initAgg (parse_trips text)).total_trips
          = 0 := h0
    exact ⟨if_neg (by simp [h0]), if_neg (by simp [h0]), if_neg (by simp [h0])⟩
  · replace hl :
        (List.foldl (stepTrip bf fm bm inc year) initAgg (parse_trips text)).trip_counts l
          = 0 := hl
    exact ⟨if_neg (by simp [hl]), if_neg (by simp [hl]), if_neg (by simp [hl]),
      if_neg (by simp [hl]), if_neg (by simp [hl]), if_neg (by simp [hl])⟩
  · replace hc :
        (if inc then
          (List.foldl (stepTrip bf fm bm inc year) initAgg (parse_trips text)).total_trips
        else
          (List.foldl (stepTrip bf fm bm inc year) initAgg
              (parse_trips text)).trip_counts 3 +
          (List.foldl (stepTrip bf fm bm inc year) initAgg
              (parse_trips text)).trip_counts 4 +
          (List.foldl (stepTrip bf fm bm inc year) initAgg
              (parse_trips text)).trip_counts 5) = 0 := hc
    exact ⟨if_neg (by simp [hc]), if_neg (by simp [hc]), if_neg (by simp [hc])⟩
  · replace hd :
        weightedDays
          (List.foldl (stepTrip bf fm bm inc year) initAgg (parse_trips text)).trip_counts
          = 0 := hd
    exact if_neg (by simp [hd])

theorem analyze_file_zero_denominators_witness :
    (analyze_file "" "All Bases" 0 0 false 2026).total_trips = 0 ∧
    (analyze_file "" "All Bases" 0 0 false 2026).avg_trip_length = 0 ∧
    (analyze_file "" "All Bases" 0 0 false 2026).trip_counts 3 = 0 ∧
    (analyze_file "" "All Bases" 0 0 false 2026).single_leg_pct 3 = 0 ∧
    (analyze_file "" "All Bases" 0 0 false 2026).front_commute_rate = 0 := by
  have h := analyze_file_zero_denominators "" "All Bases" 0 0 false 2026 _ rfl
  refine ⟨by decide, (h.1 (by decide)).1, by decide, (h.2.1 3 (by decide)).1, ?_⟩
  exact (h.2.2.1 (by decide)).1

/-! ### Claim C5 -/

theorem exceptHits_eq (exLine : Option String) (occ : List ℕ) :
    exceptHits exLine occ = (exceptRdsOf exLine).countP (fun rd => occ.contains rd) := by
  cases exLine with
  | none => rfl
  | some ex =>
    have key : ∀ entries : List (ℕ × ℕ),
        entries.countP (fun md =>
          match mkDate (hardExceptYear md.1) md.1 md.2 with
          | some dt => occ.contains (rataDie dt)
          | none => false) =
        (entries.filterMap (fun md =>
          match mkDate (hardExceptYear md.1) md.1 md.2 with
          | some dt => some (rataDie dt)
          | none => none)).countP (fun rd => occ.contains rd) := by
      intro entries
      induction entries with
      | nil => rfl
      | cons md l ih =>
        cases hmk : mkDate (hardExceptYear md.1) md.1 md.2 with
        | none =>
          simp only [List.countP_cons, List.filterMap_cons, hmk, ih]
          simp
        | some dt =>
          simp only [List.countP_cons, List.filterMap_cons, hmk, ih]
    exact key (exceptFindall ex)

theorem countP_contains_le_length (rds occ : List ℕ) (h : rds.Nodup) :
    rds.countP (fun rd => occ.contains rd) ≤ occ.length := by
  rw [List.countP_eq_length_filter]
  have hnd : (rds.filter (fun rd => occ.contains rd)).Nodup := h.filter _
  have hsub : (rds.filter (fun rd => occ.contains rd)).toFinset ⊆ occ.toFinset := by
    intro x hx
    simp only [List.mem_toFinset, List.mem_filter] at hx ⊢
    simpa using hx.2
  calc (rds.filter (fun rd => occ.contains rd)).length
      = (rds.filter (fun rd => occ.contains rd)).toFinset.card :=
        (List.toFinset_card_of_nodup hnd).symm
    _ ≤ occ.toFinset.card := Finset.card_le_card hsub
    _ ≤ occ.length := List.toFinset_card_le (l := occ)

/-- C5 (amended): `get_effective_dates` is total (modelled as a total
function); whenever no date could be parsed (missing header, unparseable
date such as Feb 30, no recognised pattern) the start/end dates are null
and the occurrence count is 1; the occurrence count is nonnegative for
the single-date form, for a range with a nonempty weekday set whose
EXCEPT line contains no duplicate dates, and for a range with an empty
weekday set whose endpoints are not reversed.  (A reversed range with no
weekday tokens, or duplicate EXCEPT dates, can drive the count
negative: see the counterexample.) -/
theorem get_effective_dates_count_nonneg (trip : List String) (year : ℤ) :
    ((get_effective_dates trip year).2.1 = none →
      (get_effective_dates trip year).2.2.1 = none ∧
      (get_effective_dates trip year).2.2.2 = 1) ∧
    (∀ h ex p, headerExceptOf trip = (some h, ex) → onlySearch h = some p →
      0 ≤ (get_effective_dates trip year).2.2.2) ∧
    (∀ h ex s e, headerExceptOf trip = (some h, ex) → onlySearch h = none →
      rangeResolve h year = some (s, e) →
      (dowFindall h).filterMap dowNum ≠ [] →
      (exceptRdsOf ex).Nodup →
      0 ≤ (get_effective_dates trip year).2.2.2) ∧
    (∀ h ex s e, headerExceptOf trip = (some h, ex) → onlySearch h = none →
      rangeResolve h year = some (s, e) →
      (dowFindall h).filterMap dowNum = [] →
      rataDie s ≤ rataDie e →
      0 ≤ (get_effective_dates trip year).2.2.2) := by
  refine ⟨?_, ?_, ?_, ?_⟩
  · rcases hhe : headerExceptOf trip with ⟨ho, ex⟩
    cases ho with
    | none =>
      intro _
      simp [get_effective_dates, hhe]
    | some h =>
      cases hos : onlySearch h with
      | some md =>
        obtain ⟨m, d⟩ := md
        cases hmk : mkDate year m d with
        | none =>
          intro _
          simp [get_effective_dates, hhe, hos, hmk]
        | some dt =>
          intro hx
          simp only [get_effective_dates, hhe, hos, hmk] at hx
          split_ifs at hx
      | none =>
        cases hrr : rangeResolve h year with
        | none =>
          intro _
          simp [get_effective_dates, hhe, hos, hrr]
        | some se =>
          obtain ⟨s, e⟩ := se
          intro hx
          simp only [get_effective_dates, hhe, hos, hrr] at hx
          split_ifs at hx
  · intro h ex p hhe hos
    obtain ⟨m, d⟩ := p
    cases hmk : mkDate year m d with
    | none => simp [get_effective_dates, hhe, hos, hmk]
    | some dt =>
      simp only [get_effective_dates, hhe, hos, hmk]
      split_ifs <;> norm_num
  · intro h ex s e hhe hos hrr hdows hnd
    have hne : ((dowFindall h).filterMap dowNum).isEmpty = false := by
      cases hlist : (dowFindall h).filterMap dowNum with
      | nil => exact absurd hlist hdows
      | cons a l => rfl
    simp only [get_effective_dates, hhe, hos, hrr, hne, Bool.false_eq_true, if_false]
    have hle := countP_contains_le_length (exceptRdsOf ex)
      (occRdList s e ((dowFindall h).filterMap dowNum)) hnd
    rw [← exceptHits_eq] at hle
    have := Int.ofNat_le.mpr hle
    omega
  · intro h ex s e hhe hos hrr hdows hse
    have hemp : ((dowFindall h).filterMap dowNum).isEmpty = true := by
      rw [hdows]
      rfl
    simp only [get_effective_dates, hhe, hos, hrr, hemp, if_true]
    omega

/-- C5 (counterexample): a reversed range with no weekday tokens gives a
negative occurrence count (`(end - start).days + 1 = -3`), so the
claimed `occurrence count ≥ 0` fails. -/
theorem get_effective_dates_negative_count :
    get_effective_dates tripBackwards 2026 =
      ([], some (2026, 1, 5), some (2026, 1, 1), -3) ∧
    (get_effective_dates tripBackwards 2026).2.2.2 < 0 := by
  constructor
  · decide
  · decide

theorem get_effective_dates_count_nonneg_witness :
    ((get_effective_dates tripFeb30 2026).2.2.1 = none ∧
      (get_effective_dates tripFeb30 2026).2.2.2 = 1) ∧
    0 ≤ (get_effective_dates tripJanRange 2026).2.2.2 ∧
    0 ≤ (get_effective_dates ["EFFECTIVE DEC30-JAN. 05"] 2026).2.2.2 :=
  ⟨(get_effective_dates_count_nonneg tripFeb30 2026).1 (by decide),
   (get_effective_dates_count_nonneg tripJanRange 2026).2.2.1
     "EFFECTIVE JAN05-JAN. 10 MO WE FR" (some " EXCEPT JAN 05")
     (2026, 1, 5) (2026, 1, 10) (by decide) (by decide) (by decide) (by decide)
     (by decide),
   (get_effective_dates_count_nonneg ["EFFECTIVE DEC30-JAN. 05"] 2026).2.2.2
     "EFFECTIVE DEC30-JAN. 05" none (2026, 12, 30) (2027, 1, 5)
     (by decide) (by decide) (by decide) (by decide) (by decide)⟩

/-! ### Claim C1 -/

theorem occRdList_mem (s e : PyDate) (t : List ℕ) (rd : ℕ) :
    rd ∈ occRdList s e t ↔
      rd ∈ Finset.Icc (rataDie s) (rataDie e) ∧ wdOfRd rd ∈ t := by
  unfold occRdList
  simp only [List.mem_filter, List.mem_map, List.mem_range, Finset.mem_Icc,
    List.elem_iff]
  constructor
  · rintro ⟨⟨i, hi, rfl⟩, hw⟩
    exact ⟨⟨Nat.le_add_right _ _, by omega⟩, by simpa using hw⟩
  · rintro ⟨⟨h1, h2⟩, hw⟩
    exact ⟨⟨rd - rataDie s, by omega, by omega⟩, by simpa using hw⟩

theorem occRdList_nodup (s e : PyDate) (t : List ℕ) : (occRdList s e t).Nodup := by
  unfold occRdList
  refine List.Nodup.filter _ (List.Nodup.map ?_ (List.nodup_range _))
  intro a b hab
  dsimp only at hab
  omega

theorem occRdList_length (s e : PyDate) (t : List ℕ) :
    (occRdList s e t).length = specMatchCount s e t := by
  classical
  unfold specMatchCount
  rw [← List.toFinset_card_of_nodup (occRdList_nodup s e t)]
  congr 1
  ext rd
  simp [occRdList_mem]

theorem exceptHits_eq_spec (exLine : Option String) (s e : PyDate) (t : List ℕ) :
    exceptHits exLine (occRdList s e t) = specExceptHits exLine s e t := by
  cases exLine with
  | none => rfl
  | some ex =>
    unfold exceptHits specExceptHits
    apply List.countP_congr
    intro md _
    cases hmk : mkDate (hardExceptYear md.1) md.1 md.2 with
    | none => simp [hmk]
    | some dt =>
      simp only [hmk]
      rw [Bool.eq_iff_iff]
      simp [occRdList_mem]

/-- C1 (amended): for a trip whose EFFECTIVE header parses to a nonempty
weekday set and a date range (range form, not the ONLY form), the
occurrence count equals the number of calendar dates in the inclusive
range `[start, end]` whose weekday is in the set, minus one for each
EXCEPT entry (with multiplicity) whose date — taken in the source's
hardcoded exception year, 2025 for months ≥ 10 and 2026 otherwise,
rather than a year derived from the supplied bid year — falls within
that counted occurrence set. -/
theorem effective_dates_range_count (trip : List String) (year : ℤ)
    (h : String) (ex : Option String) (s e : PyDate)
    (hhe : headerExceptOf trip = (some h, ex))
    (hos : onlySearch h = none)
    (hrr : rangeResolve h year = some (s, e))
    (hdows : (dowFindall h).filterMap dowNum ≠ []) :
    (get_effective_dates trip year).2.2.2 =
      (specMatchCount s e ((dowFindall h).filterMap dowNum) : ℤ) -
      (specExceptHits ex s e ((dowFindall h).filterMap dowNum) : ℤ) := by
  have hne : ((dowFindall h).filterMap dowNum).isEmpty = false := by
    cases hlist : (dowFindall h).filterMap dowNum with
    | nil => exact absurd hlist hdows
    | cons a l => rfl
  simp only [get_effective_dates, hhe, hos, hrr, hne, Bool.false_eq_true, if_false]
  rw [occRdList_length, exceptHits_eq_spec]

/-- C1 (counterexample): for an October range with an October EXCEPT
date and bid year 2026, the engine constructs the exception date in the
hardcoded year 2025, which is not among the counted 2026 occurrence
dates, so no decrement happens: the engine returns 4 where the claim's
reading (exception taken in the counted range's year) predicts 3. -/
theorem effective_dates_except_year_mismatch :
    (get_effective_dates tripOctRange 2026).2.2.2 = 4 ∧
    claimC1Count tripOctRange 2026 = some 3 := by
  constructor
  · decide
  · decide

theorem effective_dates_range_count_witness :
    headerExceptOf tripJanRange =
      (some "EFFECTIVE JAN05-JAN. 10 MO WE FR", some " EXCEPT JAN 05") ∧
    (get_effective_dates tripJanRange 2026).2.2.2 = 2 ∧
    (get_effective_dates tripJanRange 2026).2.2.2 =
      (specMatchCount (2026, 1, 5) (2026, 1, 10)
        ((dowFindall "EFFECTIVE JAN05-JAN. 10 MO WE FR").filterMap dowNum) : ℤ) -
      (specExceptHits (some " EXCEPT JAN 05") (2026, 1, 5) (2026, 1, 10)
        ((dowFindall "EFFECTIVE JAN05-JAN. 10 MO WE FR").filterMap dowNum) : ℤ) :=
  ⟨by decide, by decide,
   effective_dates_range_count tripJanRange 2026
     "EFFECTIVE JAN05-JAN. 10 MO WE FR" (some " EXCEPT JAN 05")
     (2026, 1, 5) (2026, 1, 10) (by decide) (by decide) (by decide) (by decide)⟩

/-! ### Claim C4 -/

theorem get_total_credit_filter (trip : List String) :
    get_total_credit trip =
      get_total_credit (trip.filter (fun l => containsStr "TOTAL CREDIT" l)) := by
  induction trip with
  | nil => rfl
  | cons l ls ih =>
    by_cases hc : containsStr "TOTAL CREDIT" l = true
    · cases ht : tcScanTokens (pySplit l) <;>
        simp [get_total_credit, List.filter_cons, hc, ht, ih]
    · simp only [Bool.not_eq_true] at hc
      simp [get_total_credit, List.filter_cons, hc, ih]

/-- Section 1 of a split trip (lines before the split point plus the
TOTAL CREDIT / TOTAL PAY lines after it) has the same extracted TOTAL
CREDIT as the whole trip: `get_total_credit` only looks at lines
containing `TOTAL CREDIT`, and those appear in section 1 in the same
order as in the trip. -/
theorem get_total_credit_section1 (trip : List String) (idx : ℕ) :
    get_total_credit (trip.take idx ++
      (trip.drop idx).filter
        (fun l => containsStr "TOTAL CREDIT" l || containsStr "TOTAL PAY" l)) =
    get_total_credit trip := by
  rw [get_total_credit_filter, get_total_credit_filter trip]
  congr 1
  rw [List.filter_append, List.filter_filter]
  have hpt : ∀ a : String,
      (containsStr "TOTAL CREDIT" a &&
        (containsStr "TOTAL CREDIT" a || containsStr "TOTAL PAY" a)) =
      containsStr "TOTAL CREDIT" a := by
    intro a
    cases h : containsStr "TOTAL CREDIT" a <;> simp [h]
  simp only [hpt]
  rw [← List.filter_append, List.take_append_drop]

/-- C4 (amended): for every trip that `get_detailed_trips` detects as a
split trip (with both sections nonempty), exactly two records are
emitted; section 1's occurrence count is 1; section 2's occurrence count
is `max(totalOccurrences - 1, 0)` where `totalOccurrences` is the
occurrence count resolved by `get_effective_dates` with its default bid
year 2026 (the split path ignores the supplied bid year); section 1's
total credit is the trip's own printed TOTAL CREDIT value; section 2's
total credit is `max(sum of its leg block times in decimal hours,
5.15 × its number of distinct duty-day letters)`; and section 2's total
pay and all pay sub-components are null. -/
theorem split_trip_sections (bf bm : String) (year : ℤ) (trip : List String)
    (ap : String) (s1 s2 : List String) (idx : Option ℕ)
    (hfa : get_first_departure_airport trip = some ap)
    (hfilter : ¬(bf ≠ "All Bases" ∧ baseOf ap ≠ bf))
    (hsplit : is_split_trip trip bm = true)
    (hsec : split_trip_into_sections trip = (s1, s2, idx))
    (h1 : s1 ≠ []) (h2 : s2 ≠ []) :
    ∃ r1 r2, perTripEntries bf bm year trip = [r1, r2] ∧
      r1.occurrences = 1 ∧
      r2.occurrences = max ((get_effective_dates trip 2026).2.2.2 - 1) 0 ∧
      r1.total_credit = get_total_credit trip ∧
      r2.total_credit =
        some (max (blockSumSpec s2) ((5.15 : ℚ) * (distinctDutyDays s2 : ℕ))) ∧
      r2.total_pay = none ∧ r2.sit = none ∧ r2.edp = none ∧ r2.hol = none ∧
      r2.carve = none := by
  obtain ⟨i, hs1⟩ : ∃ i, s1 = trip.take i ++
      (trip.drop i).filter
        (fun l => containsStr "TOTAL CREDIT" l || containsStr "TOTAL PAY" l) := by
    unfold split_trip_into_sections at hsec
    by_cases hp : (dayLetterIdx trip).isEmpty = true
    · rw [if_pos hp] at hsec
      have h2eq : s2 = [] := (congrArg (fun p => p.2.1) hsec).symm
      exact absurd h2eq h2
    · rw [if_neg hp] at hsec
      cases hfr : firstRepeatIdx [] (dayLetterIdx trip) with
      | none =>
        rw [hfr] at hsec
        have h2eq : s2 = [] := (congrArg (fun p => p.2.1) hsec).symm
        exact absurd h2eq h2
      | some i =>
        rw [hfr] at hsec
        exact ⟨i, (congrArg (fun p => p.1) hsec).symm⟩
  have hne1 : s1.isEmpty = false := by
    cases s1 with
    | nil => exact absurd rfl h1
    | cons a l => rfl
  have hne2 : s2.isEmpty = false := by
    cases s2 with
    | nil => exact absurd rfl h2
    | cons a l => rfl
  unfold perTripEntries
  simp only [hfa, hsplit, hsec, hne1, hne2, if_neg hfilter, if_true,
    Bool.not_false, Bool.and_self, if_true]
  refine ⟨_, _, rfl, rfl, rfl, ?_, rfl, rfl, rfl, rfl, rfl, rfl⟩
  show (extract_detailed_trip_info s1).total_credit = get_total_credit trip
  rw [show (extract_detailed_trip_info s1).total_credit = get_total_credit s1
    from rfl]
  rw [hs1]
  exact get_total_credit_section1 trip i

/-- C4 (counterexample): with bid year 2027 supplied, the trip's
recurrence resolves to 3 occurrences, so the claim predicts section-2
occurrences `max(3 − 1, 0) = 2`; the engine instead emits 3, because the
split path resolves the recurrence with its default year 2026 (where the
count is 4). -/
theorem split_trip_section2_bid_year_mismatch :
    (get_effective_dates splitTripLines 2027).2.2.2 = 3 ∧
    ((perTripEntries "All Bases" "February" 2027 splitTripLines).map
      (·.occurrences)) = [1, 3] ∧
    max ((get_effective_dates splitTripLines 2027).2.2.2 - 1) 0 = 2 := by
  refine ⟨?_, ?_, ?_⟩
  · decide
  · decide
  · decide

theorem split_trip_sections_witness :
    is_split_trip splitTripLines "February" = true ∧
    (∃ r1 r2, perTripEntries "All Bases" "February" 2026 splitTripLines = [r1, r2] ∧
      r1.occurrences = 1 ∧
      r2.occurrences = max ((get_effective_dates splitTripLines 2026).2.2.2 - 1) 0 ∧
      r1.total_credit = get_total_credit splitTripLines ∧
      r2.total_credit =
        some (max (blockSumSpec ((split_trip_into_sections splitTripLines).2.1))
          ((5.15 : ℚ) *
            (distinctDutyDays ((split_trip_into_sections splitTripLines).2.1) : ℕ))) ∧
      r2.total_pay = none ∧ r2.sit = none ∧ r2.edp = none ∧ r2.hol = none ∧
      r2.carve = none) :=
  ⟨by decide,
   split_trip_sections "All Bases" "February" 2026 splitTripLines "JFK"
     (split_trip_into_sections splitTripLines).1
     (split_trip_into_sections splitTripLines).2.1
     (split_trip_into_sections splitTripLines).2.2
     (by decide) (by simp) (by decide) rfl (by decide) (by decide)⟩

end TripAnalysis
